import Mathlib

/-!
# Skateboarding simulation (`peenskate.cpp`): embedding of the game logic

The C++ program keeps one global `Player` and updates it once per frame with
`UpdateGame(dt)`.  The embedding below passes that player explicitly.

* `float` values are elements of an arbitrary linearly ordered field `F`
  (the real numbers being the intended reading); rounding and NaN are not
  modelled, so a rail with `start = end` (the quotient 0/0 of line 103) is
  outside the model.
* The libm / platform functions the code calls (`sqrtf`, `sinf`, `cosf`, the
  constant `PI` and the C cast `(int)`) are collected in `MathOps F`.
* `int` scores are unbounded integers (signed overflow is undefined in C++).
* Key polling (`IsKeyPressed`, `IsKeyDown`) and `GetTime()` are the fields of
  `Input F`, read once per frame.
* The camera follow code (lines 345-355) only writes the global `camera`,
  which no player update reads; it is outside this embedding.
-/

namespace Skate

/-! ## Types -/

/-- The raylib `Vector3`. -/
structure Vector3 (F : Type) where
  x : F
  y : F
  z : F

/-- The raylib `Color` (four unsigned bytes); carried by the level data only. -/
structure Color where
  r : Nat
  g : Nat
  b : Nat
  a : Nat
deriving DecidableEq, Repr

/-- Functions of the C runtime used by the game, over the number type `F`. -/
structure MathOps (F : Type) where
  sqrtf : F → F
  sinf : F → F
  cosf : F → F
  PI : F
  toInt : F → Int

/-- The `enum State` of the source. -/
inductive State where
  | STATE_GROUND
  | STATE_AIR
  | STATE_GRIND
deriving DecidableEq, Repr

open State

/-- The `struct Rail` of the source. -/
structure Rail (F : Type) where
  start : Vector3 F
  «end» : Vector3 F
  height : F
  color : Color

/-- The `struct Ramp` of the source. -/
structure Ramp (F : Type) where
  pos : Vector3 F
  size : Vector3 F
  rotation : F
  color : Color

/-- The `struct Player` of the source. -/
structure Player (F : Type) where
  pos : Vector3 F
  vel : Vector3 F
  rot : F
  state : State
  boardRotX : F
  boardRotZ : F
  lean : F
  score : Int
  comboScore : Int
  comboMult : Int
  trickText : String
  messageTimer : F

/-- The globals `rails` and `ramps`. -/
structure Level (F : Type) where
  rails : List (Rail F)
  ramps : List (Ramp F)

/-- What one frame reads from the keyboard and the clock:
`pressedX` is `IsKeyPressed(KEY_X)`, `downX` is `IsKeyDown(KEY_X)` and `time`
is `GetTime()`. -/
structure Input (F : Type) where
  pressedR : Bool
  downA : Bool
  downLEFT : Bool
  downD : Bool
  downRIGHT : Bool
  downW : Bool
  downUP : Bool
  downS : Bool
  downDOWN : Bool
  pressedSPACE : Bool
  pressedJ : Bool
  pressedK : Bool
  pressedL : Bool
  time : F

section Defs

variable {F : Type} [LinearOrderedField F]

/-! ## Constants -/

def MAX_SPEED : F := 22
def ACCEL : F := 15
def TURN_SPEED : F := 3.5
def FRICTION : F := 0.98
def GRAVITY : F := 35
def JUMP_FORCE : F := 13
def RAIL_SNAP_DIST : F := 1.5

def RED : Color := ⟨230, 41, 55, 255⟩
def GOLD : Color := ⟨255, 203, 0, 255⟩
def BLUE : Color := ⟨0, 121, 241, 255⟩
def DARKBLUE : Color := ⟨0, 82, 172, 255⟩
def PURPLE : Color := ⟨200, 122, 255, 255⟩

/-! ## raymath helpers (as defined in `raymath.h`) -/

def Vector3Add (v1 v2 : Vector3 F) : Vector3 F :=
  ⟨v1.x + v2.x, v1.y + v2.y, v1.z + v2.z⟩

def Vector3Subtract (v1 v2 : Vector3 F) : Vector3 F :=
  ⟨v1.x - v2.x, v1.y - v2.y, v1.z - v2.z⟩

def Vector3Scale (v : Vector3 F) (scalar : F) : Vector3 F :=
  ⟨v.x * scalar, v.y * scalar, v.z * scalar⟩

def Vector3DotProduct (v1 v2 : Vector3 F) : F :=
  v1.x * v2.x + v1.y * v2.y + v1.z * v2.z

def Vector3Length (ops : MathOps F) (v : Vector3 F) : F :=
  ops.sqrtf (v.x * v.x + v.y * v.y + v.z * v.z)

def Vector3Distance (ops : MathOps F) (v1 v2 : Vector3 F) : F :=
  ops.sqrtf ((v2.x - v1.x) * (v2.x - v1.x) + (v2.y - v1.y) * (v2.y - v1.y)
    + (v2.z - v1.z) * (v2.z - v1.z))

/-- The raymath `Vector3Normalize`: the vector is returned unchanged when its length is 0. -/
def Vector3Normalize (ops : MathOps F) (v : Vector3 F) : Vector3 F :=
  let length := ops.sqrtf (v.x * v.x + v.y * v.y + v.z * v.z)
  if length ≠ 0 then
    let ilength := 1 / length
    ⟨v.x * ilength, v.y * ilength, v.z * ilength⟩
  else v

def Clamp (value min max : F) : F :=
  let result := if value < min then min else value
  if result > max then max else result

def Lerp (start «end» amount : F) : F :=
  start + amount * («end» - start)

/-! ## Math helpers of the source -/

/-- Source lines 101-106. -/
def ClosestPointOnSegment (p a b : Vector3 F) : Vector3 F :=
  let ab := Vector3Subtract b a
  let t := Vector3DotProduct (Vector3Subtract p a) ab / Vector3DotProduct ab ab
  let t := Clamp t 0 1
  Vector3Add a (Vector3Scale ab t)

/-- Source line 108. -/
def Deg2Rad (ops : MathOps F) (deg : F) : F :=
  deg * (ops.PI / 180)

/-! ## Initialization -/

/-- Source lines 122-134 (the player part of `ResetGame`). -/
def ResetGame (player : Player F) : Player F :=
  { player with
    pos := ⟨0, 0.5, 0⟩
    vel := ⟨0, 0, 0⟩
    rot := 0
    state := STATE_GROUND
    boardRotX := 0
    boardRotZ := 0
    lean := 0
    score := 0
    comboScore := 0
    comboMult := 1
    trickText := ""
    messageTimer := 0 }

/-- Source lines 143-161. -/
def InitLevel : Level F :=
  { rails :=
      [ ⟨⟨5, 0, 10⟩, ⟨5, 0, 40⟩, 1.5, RED⟩,
        ⟨⟨-20, 0, 25⟩, ⟨-5, 0, 25⟩, 2, GOLD⟩ ]
    ramps :=
      [ ⟨⟨0, 0, 25⟩, ⟨8, 3, 10⟩, 0, BLUE⟩,
        ⟨⟨-15, 0, 5⟩, ⟨6, 2.5, 8⟩, 90, DARKBLUE⟩,
        ⟨⟨0, 0, 60⟩, ⟨30, 8, 15⟩, 180, PURPLE⟩ ] }

/-- Line 148: the red rail of `InitLevel`. -/
def redRail : Rail F := ⟨⟨5, 0, 10⟩, ⟨5, 0, 40⟩, 1.5, RED⟩

/-- Line 151: the gold rail of `InitLevel`. -/
def goldRail : Rail F := ⟨⟨-20, 0, 25⟩, ⟨-5, 0, 25⟩, 2, GOLD⟩

/-! ## Game logic: the blocks of `UpdateGame`, in source order -/

/-- Line 168: `if (IsKeyPressed(KEY_R)) ResetGame();`. -/
def resetKey (inp : Input F) (player : Player F) : Player F :=
  if inp.pressedR then ResetGame player else player

/-- Lines 170-172. -/
def turnInput (inp : Input F) : F :=
  let t : F := 0
  let t := if inp.downA || inp.downLEFT then 1 else t
  if inp.downD || inp.downRIGHT then -1 else t

/-- Lines 174-176. -/
def moveInput (inp : Input F) : F :=
  let m : F := 0
  let m := if inp.downW || inp.downUP then 1 else m
  if inp.downS || inp.downDOWN then -1 else m

/-- Lines 179-182: turning. -/
def turning (dt : F) (inp : Input F) (player : Player F) : Player F :=
  if player.state ≠ STATE_GRIND then
    { player with
      rot := player.rot + turnInput inp * TURN_SPEED
      lean := Lerp player.lean (turnInput inp * -15) (5 * dt) }
  else player

/-- Line 184: the forward vector. -/
def forward (ops : MathOps F) (player : Player F) : Vector3 F :=
  ⟨ops.sinf (Deg2Rad ops player.rot), 0, ops.cosf (Deg2Rad ops player.rot)⟩

/-- Lines 186-191: acceleration and friction on the ground. -/
def groundAccel (ops : MathOps F) (dt : F) (inp : Input F) (player : Player F) : Player F :=
  if player.state = STATE_GROUND then
    let vel := Vector3Add player.vel (Vector3Scale (forward ops player) (moveInput inp * ACCEL * dt))
    { player with vel := ⟨vel.x * FRICTION, vel.y, vel.z * FRICTION⟩ }
  else player

/-- Lines 194-196: speed cap. -/
def speedCap (ops : MathOps F) (player : Player F) : Player F :=
  if Vector3Length ops player.vel > MAX_SPEED then
    { player with vel := Vector3Scale (Vector3Normalize ops player.vel) MAX_SPEED }
  else player

/-- Lines 199-201: gravity. -/
def gravity (dt : F) (player : Player F) : Player F :=
  if player.state ≠ STATE_GRIND then
    { player with vel := { player.vel with y := player.vel.y - GRAVITY * dt } }
  else player

/-- Lines 207-233: the body of the grind-entry loop for one rail. -/
def grindEntryRail (ops : MathOps F) (player : Player F) (rail : Rail F) : Player F :=
  let closest := ClosestPointOnSegment player.pos rail.start rail.end
  let dist := Vector3Distance ops player.pos closest
  if dist < RAIL_SNAP_DIST ∧ player.pos.y ≥ rail.height - 0.5 ∧ player.pos.y ≤ rail.height + 1 then
    let pos : Vector3 F := { closest with y := rail.height + 0.2 }
    let vel : Vector3 F := { player.vel with y := 0 }
    let railDir := Vector3Normalize ops (Vector3Subtract rail.end rail.start)
    let currentSpeed := Vector3Length ops ⟨vel.x, 0, vel.z⟩
    let currentSpeed := if currentSpeed < 10 then 10 else currentSpeed
    let railDir := if Vector3DotProduct vel railDir < 0 then Vector3Scale railDir (-1) else railDir
    { player with
      state := STATE_GRIND
      pos := pos
      vel := Vector3Scale railDir currentSpeed
      comboScore := player.comboScore + 50
      comboMult := player.comboMult + 1
      trickText := "Rail Grind!"
      messageTimer := 1 }
  else player

/-- Lines 205-235: grind entry. -/
def grindEntry (ops : MathOps F) (rails : List (Rail F)) (player : Player F) : Player F :=
  if player.state = STATE_AIR ∧ player.vel.y < 0 then
    rails.foldl (grindEntryRail ops) player
  else player

/-- Lines 240-244: the `onAnyRail` flag. -/
def onAnyRail (ops : MathOps F) (rails : List (Rail F)) (player : Player F) : Bool :=
  rails.foldl
    (fun flag rail =>
      let c := ClosestPointOnSegment player.pos rail.start rail.end
      if Vector3Distance ops player.pos c < 0.5 then true else flag)
    false

/-- Lines 238-253: grind continuation and exit; `%` on `int` truncates toward zero. -/
def grindLogic (ops : MathOps F) (rails : List (Rail F)) (inp : Input F)
    (player : Player F) : Player F :=
  if player.state = STATE_GRIND then
    if ¬ onAnyRail ops rails player then
      { player with state := STATE_AIR, vel := { player.vel with y := -2 } }
    else if (ops.toInt (inp.time * 10)).tmod 5 = 0 then
      { player with comboScore := player.comboScore + 1 }
    else player
  else player

/-- Line 256: movement integration. -/
def integrate (dt : F) (player : Player F) : Player F :=
  { player with pos := Vector3Add player.pos (Vector3Scale player.vel dt) }

/-- Lines 262-283: the body of the ramp loop, on the pair `(floorHeight, onRamp)`. -/
def floorRamp (ops : MathOps F) (pos : Vector3 F) (acc : F × Bool) (ramp : Ramp F) : F × Bool :=
  let d := Vector3Subtract pos ramp.pos
  let rad := Deg2Rad ops (-ramp.rotation)
  let localX := d.x * ops.cosf rad - d.z * ops.sinf rad
  let localZ := d.x * ops.sinf rad + d.z * ops.cosf rad
  let halfW := ramp.size.x / 2
  let halfL := ramp.size.z / 2
  if |localX| < halfW ∧ |localZ| < halfL then
    let t := (localZ + halfL) / ramp.size.z
    let h := t * ramp.size.y
    if h > acc.1 then (h, true) else acc
  else acc

/-- Lines 259-283: floor height under a position. -/
def floorScan (ops : MathOps F) (ramps : List (Ramp F)) (pos : Vector3 F) : F × Bool :=
  ramps.foldl (floorRamp ops pos) (0, false)

/-- Lines 286-307: floor snap and landing, for a resolved `floorHeight`. -/
def floorSnap (floorHeight : F) (player : Player F) : Player F :=
  if player.pos.y ≤ floorHeight then
    let player := { player with pos := { player.pos with y := floorHeight } }
    let player :=
      if player.vel.y < 0 then { player with vel := { player.vel with y := 0 } } else player
    if player.state = STATE_AIR ∨ player.state = STATE_GRIND then
      let player := { player with state := STATE_GROUND, lean := 0 }
      if player.comboScore > 0 then
        { player with
          score := player.score + player.comboScore * player.comboMult
          trickText := "Landed! +" ++ toString (player.comboScore * player.comboMult)
          messageTimer := 2
          comboScore := 0
          comboMult := 1 }
      else player
    else player
  else if player.pos.y > floorHeight + 0.1 ∧ player.state ≠ STATE_GRIND then
    { player with state := STATE_AIR }
  else player

/-- Lines 310-316: jump. -/
def jumpAction (inp : Input F) (player : Player F) : Player F :=
  if inp.pressedSPACE ∧ (player.state = STATE_GROUND ∨ player.state = STATE_GRIND) then
    { player with
      vel := { player.vel with y := JUMP_FORCE }
      state := STATE_AIR
      trickText := "Ollie"
      messageTimer := 1
      comboScore := player.comboScore + 10 }
  else player

/-- Lines 318-334: flip tricks. -/
def trickActions (inp : Input F) (player : Player F) : Player F :=
  if player.state = STATE_AIR then
    let player :=
      if inp.pressedJ then
        { player with
          comboScore := player.comboScore + 100, comboMult := player.comboMult + 1
          trickText := "Kickflip", messageTimer := 1, boardRotX := 360 }
      else player
    let player :=
      if inp.pressedK then
        { player with
          comboScore := player.comboScore + 100, comboMult := player.comboMult + 1
          trickText := "Heelflip", messageTimer := 1, boardRotX := -360 }
      else player
    if inp.pressedL then
      { player with
        comboScore := player.comboScore + 150, comboMult := player.comboMult + 1
        trickText := "Pop Shuvit", messageTimer := 1, boardRotZ := 360 }
    else player
  else player

/-- Lines 338-343: animation smoothing of the board rotation (`abs` is the absolute value
of a float). -/
def animation (dt : F) (player : Player F) : Player F :=
  let rotSpeed := 720 * dt
  let player :=
    if player.boardRotX > 0 then { player with boardRotX := player.boardRotX - rotSpeed } else player
  let player :=
    if player.boardRotX < 0 then { player with boardRotX := player.boardRotX + rotSpeed } else player
  let player :=
    if player.boardRotZ > 0 then { player with boardRotZ := player.boardRotZ - rotSpeed } else player
  let player := if |player.boardRotX| < 10 then { player with boardRotX := 0 } else player
  if |player.boardRotZ| < 10 then { player with boardRotZ := 0 } else player

/-- Line 357: the message timer. -/
def messageTick (dt : F) (player : Player F) : Player F :=
  if player.messageTimer > 0 then { player with messageTimer := player.messageTimer - dt }
  else player

/-- Line 360: bounds check. -/
def boundsCheck (player : Player F) : Player F :=
  if player.pos.y < -10 then ResetGame player else player

/-! ## The frame update, assembled -/

/-- Lines 168-201: reset key, turning, acceleration, speed cap and gravity. -/
def locomotion (ops : MathOps F) (dt : F) (inp : Input F) (player : Player F) : Player F :=
  gravity dt (speedCap ops (groundAccel ops dt inp (turning dt inp (resetKey inp player))))

/-- Lines 168-235: the player as the grind continuation check finds it. -/
def beforeGrindLogic (ops : MathOps F) (lvl : Level F) (dt : F) (inp : Input F)
    (player : Player F) : Player F :=
  grindEntry ops lvl.rails (locomotion ops dt inp player)

/-- Lines 168-256: the player after movement integration, as the collision code finds it. -/
def integrated (ops : MathOps F) (lvl : Level F) (dt : F) (inp : Input F)
    (player : Player F) : Player F :=
  integrate dt (grindLogic ops lvl.rails inp (beforeGrindLogic ops lvl dt inp player))

/-- Lines 259-283 at the integrated position: the resolved `floorHeight`. -/
def resolvedFloor (ops : MathOps F) (lvl : Level F) (dt : F) (inp : Input F)
    (player : Player F) : F :=
  (floorScan ops lvl.ramps (integrated ops lvl dt inp player).pos).1

/-- Lines 168-307: the player after collision resolution. -/
def collided (ops : MathOps F) (lvl : Level F) (dt : F) (inp : Input F)
    (player : Player F) : Player F :=
  floorSnap (resolvedFloor ops lvl dt inp player) (integrated ops lvl dt inp player)

/-- Lines 168-357: the player as the bounds check finds it. -/
def beforeBounds (ops : MathOps F) (lvl : Level F) (dt : F) (inp : Input F)
    (player : Player F) : Player F :=
  messageTick dt (animation dt (trickActions inp (jumpAction inp (collided ops lvl dt inp player))))

/-- The function `UpdateGame(dt)` of the source, lines 166-361, on the player. -/
def UpdateGame (ops : MathOps F) (lvl : Level F) (dt : F) (inp : Input F)
    (player : Player F) : Player F :=
  boundsCheck (beforeBounds ops lvl dt inp player)

/-- The player after a sequence of frames, each with its own `dt` and input. -/
def runFrames (ops : MathOps F) (lvl : Level F) (frames : List (F × Input F))
    (player : Player F) : Player F :=
  frames.foldl (fun p fr => UpdateGame ops lvl fr.1 fr.2 p) player

/-! ## Quantities of the geometry code, named for the statements -/

/-- Squared distance between two points: the argument of the square root in
`Vector3Distance`. -/
def distSq (v1 v2 : Vector3 F) : F :=
  (v2.x - v1.x) * (v2.x - v1.x) + (v2.y - v1.y) * (v2.y - v1.y)
    + (v2.z - v1.z) * (v2.z - v1.z)

/-- The point of the line through `a` and `b` at parameter `s`. -/
def pointAt (a b : Vector3 F) (s : F) : Vector3 F :=
  Vector3Add a (Vector3Scale (Vector3Subtract b a) s)

/-- Lines 264-266: the x coordinate of a position in the frame of a ramp. -/
def rampLocalX (ops : MathOps F) (pos : Vector3 F) (ramp : Ramp F) : F :=
  (Vector3Subtract pos ramp.pos).x * ops.cosf (Deg2Rad ops (-ramp.rotation))
    - (Vector3Subtract pos ramp.pos).z * ops.sinf (Deg2Rad ops (-ramp.rotation))

/-- Lines 264-267: the z coordinate of a position in the frame of a ramp. -/
def rampLocalZ (ops : MathOps F) (pos : Vector3 F) (ramp : Ramp F) : F :=
  (Vector3Subtract pos ramp.pos).x * ops.sinf (Deg2Rad ops (-ramp.rotation))
    + (Vector3Subtract pos ramp.pos).z * ops.cosf (Deg2Rad ops (-ramp.rotation))

/-- Line 275: the depth parameter `t` of a position on a ramp. -/
def rampT (ops : MathOps F) (pos : Vector3 F) (ramp : Ramp F) : F :=
  (rampLocalZ ops pos ramp + ramp.size.z / 2) / ramp.size.z

/-- Line 276: the height `h` of the slope of a ramp at a position. -/
def rampHeight (ops : MathOps F) (pos : Vector3 F) (ramp : Ramp F) : F :=
  rampT ops pos ramp * ramp.size.y

/-! ## Sample data for concrete evaluation -/

/-- A frame in which no key is down or pressed, at clock value 0. -/
def idleInput : Input F :=
  { pressedR := false, downA := false, downLEFT := false, downD := false, downRIGHT := false
    downW := false, downUP := false, downS := false, downDOWN := false
    pressedSPACE := false, pressedJ := false, pressedK := false, pressedL := false
    time := 0 }

/-- A player at `pos` with velocity `vel` in phase `st`, with the given scores, facing 0,
board level, no message. -/
def playerAt (pos vel : Vector3 F) (st : State) (score comboScore comboMult : Int) : Player F :=
  { pos := pos, vel := vel, rot := 0, state := st
    boardRotX := 0, boardRotZ := 0, lean := 0
    score := score, comboScore := comboScore, comboMult := comboMult
    trickText := "", messageTimer := 0 }

/-- The idle frame with the reset key pressed. -/
def resetInput : Input F := { idleInput with pressedR := true }

/-- The idle frame with the jump key pressed. -/
def jumpInput : Input F := { idleInput with pressedSPACE := true }

/-- An airborne player next to the red rail of `InitLevel`, falling at 5 units per second,
with score 7, pending combo 150 and multiplier 3. -/
def fallingPlayer : Player F :=
  playerAt ⟨5.5, 1.8, 20⟩ ⟨0, -5, 0⟩ STATE_AIR 7 150 3

/-- The same player just above the ground plane. -/
def landingPlayer : Player F :=
  playerAt ⟨5.5, 0.02, 20⟩ ⟨0, -5, 0⟩ STATE_AIR 7 150 3

/-- The same player 11 units below the ground plane. -/
def sunkPlayer : Player F :=
  playerAt ⟨5.5, -11, 20⟩ ⟨0, -5, 0⟩ STATE_AIR 7 150 3

/-- A grinding player just past the far end of the red rail of `InitLevel`, with score 7,
pending combo 150 and multiplier 3. -/
def overshotPlayer : Player F :=
  playerAt ⟨5, 1.7, 41⟩ ⟨0, 0, 10⟩ STATE_GRIND 7 150 3

/-- An airborne player high above the ground, falling at exactly `MAX_SPEED`. -/
def terminalPlayer : Player F :=
  playerAt ⟨5.5, 50, 20⟩ ⟨0, -22, 0⟩ STATE_AIR 0 0 1

/-- An airborne player moving at speed 50. -/
def speedingPlayer : Player F :=
  playerAt ⟨5.5, 50, 20⟩ ⟨30, 0, 40⟩ STATE_AIR 0 0 1

/-- Bare ground with one rail of height 0 from the origin to `tip`. -/
def oneRailLevel (tip : Vector3 F) : Level F :=
  { rails := [⟨⟨0, 0, 0⟩, tip, 0, RED⟩], ramps := [] }

/-- The idle frame with the turn-left key held down. -/
def leftInput : Input F := { idleInput with downA := true }

/-- An airborne player over the main kicker ramp of `InitLevel`, moving up the slope. -/
def climbingPlayer : Player F :=
  playerAt ⟨0, 0.9, 23⟩ ⟨0, 2, 20⟩ STATE_AIR 7 150 3

/-- An airborne player 1.2 above the ground right over the red rail of `InitLevel`. -/
def railHitPlayer : Player F :=
  playerAt ⟨5, 1.2, 20⟩ ⟨0, -5, 0⟩ STATE_AIR 7 150 3

/-- An airborne player next to the gold rail of `InitLevel`, 0.3 above its height. -/
def goldHoverPlayer : Player F :=
  playerAt ⟨-10, 2.3, 25.5⟩ ⟨0, -5, 0⟩ STATE_AIR 7 150 3

/-- Bare ground with two parallel rails half a unit apart, both with the bar at height 1. -/
def twinRailLevel : Level F :=
  { rails := [⟨⟨0, 1, 0⟩, ⟨5, 1, 0⟩, 1, RED⟩, ⟨⟨0, 1, 0.5⟩, ⟨5, 1, 0.5⟩, 1, GOLD⟩]
    ramps := [] }

/-- An airborne player between the two rails of `twinRailLevel`, 0.3 above the bars. -/
def twinRailPlayer : Player F :=
  playerAt ⟨2, 1.3, 0.2⟩ ⟨0, -5, 0⟩ STATE_AIR 7 150 3

end Defs

/-- The runtime functions over the real numbers: exact square root, sine, cosine and pi, and
truncation toward zero for the cast to `int`. -/
noncomputable def realOps : MathOps ℝ :=
  { sqrtf := Real.sqrt
    sinf := Real.sin
    cosf := Real.cos
    PI := Real.pi
    toInt := fun x => if 0 ≤ x then ⌊x⌋ else ⌈x⌉ }

/-! ## Predicates used in the statements -/

section Predicates

variable {F : Type} [LinearOrderedField F]

/-- The three scoring facts of the data model: pending combo non-negative, multiplier at
least 1, and multiplier 1 whenever the pending combo is 0. -/
def ComboInv (p : Player F) : Prop :=
  0 ≤ p.comboScore ∧ 1 ≤ p.comboMult ∧ (p.comboScore = 0 → p.comboMult = 1)

/-- Pending combo non-negative and multiplier at least 1. -/
def ComboNonneg (p : Player F) : Prop :=
  0 ≤ p.comboScore ∧ 1 ≤ p.comboMult

/-- Scores and phase are the same in two players. -/
def SameScoring (p q : Player F) : Prop :=
  q.state = p.state ∧ q.score = p.score ∧ q.comboScore = p.comboScore ∧ q.comboMult = p.comboMult

/-- The landing branch of lines 291-304: the collision code finds the player in phase Air or
Grind at or below the floor height. -/
def Landing (fh : F) (p : Player F) : Prop :=
  p.pos.y ≤ fh ∧ (p.state = STATE_AIR ∨ p.state = STATE_GRIND)

/-- In phase Grind the vertical velocity is 0. -/
def GrindFlat (p : Player F) : Prop :=
  p.state = STATE_GRIND → p.vel.y = 0

/-- The rail is within the continuation threshold 0.5 of the position. -/
def NearRail (ops : MathOps F) (pos : Vector3 F) (rail : Rail F) : Prop :=
  Vector3Distance ops pos (ClosestPointOnSegment pos rail.start rail.end) < 0.5

/-- Squared Euclidean length of a vector. -/
def normSq (v : Vector3 F) : F :=
  v.x ^ 2 + v.y ^ 2 + v.z ^ 2

/-- The two laws of an exact square root. -/
def ExactSqrt (ops : MathOps F) : Prop :=
  (∀ x : F, 0 ≤ x → ops.sqrtf x * ops.sqrtf x = x) ∧ (∀ x : F, 0 ≤ ops.sqrtf x)

/-- Line 272: the footprint test of a ramp. -/
def InFootprint (ops : MathOps F) (pos : Vector3 F) (ramp : Ramp F) : Prop :=
  |rampLocalX ops pos ramp| < ramp.size.x / 2 ∧ |rampLocalZ ops pos ramp| < ramp.size.z / 2

/-- Line 211: the snap condition of the grind-entry loop. -/
def SnapCondition (ops : MathOps F) (player : Player F) (rail : Rail F) : Prop :=
  Vector3Distance ops player.pos (ClosestPointOnSegment player.pos rail.start rail.end)
      < RAIL_SNAP_DIST
    ∧ player.pos.y ≥ rail.height - 0.5 ∧ player.pos.y ≤ rail.height + 1

end Predicates

/-! ## Field-by-field effect of the blocks -/

section Lemmas

variable {F : Type} [LinearOrderedField F]

omit [LinearOrderedField F] in
theorem SameScoring.trans {p q r : Player F} (h₁ : SameScoring p q) (h₂ : SameScoring q r) :
    SameScoring p r := by
  obtain ⟨a, b, c, d⟩ := h₁
  obtain ⟨a', b', c', d'⟩ := h₂
  exact ⟨a'.trans a, b'.trans b, c'.trans c, d'.trans d⟩

theorem turning_scoring (dt : F) (inp : Input F) (p : Player F) :
    SameScoring p (turning dt inp p) := by
  unfold turning SameScoring; split_ifs <;> simp

theorem groundAccel_scoring (ops : MathOps F) (dt : F) (inp : Input F) (p : Player F) :
    SameScoring p (groundAccel ops dt inp p) := by
  unfold groundAccel SameScoring; split_ifs <;> simp

theorem speedCap_scoring (ops : MathOps F) (p : Player F) :
    SameScoring p (speedCap ops p) := by
  unfold speedCap SameScoring; split_ifs <;> simp

theorem gravity_scoring (dt : F) (p : Player F) : SameScoring p (gravity dt p) := by
  unfold gravity SameScoring; split_ifs <;> simp

theorem integrate_scoring (dt : F) (p : Player F) : SameScoring p (integrate dt p) := by
  simp [integrate, SameScoring]

theorem animation_scoring (dt : F) (p : Player F) : SameScoring p (animation dt p) := by
  unfold animation SameScoring; dsimp only; split_ifs <;> simp

theorem messageTick_scoring (dt : F) (p : Player F) : SameScoring p (messageTick dt p) := by
  unfold messageTick SameScoring; split_ifs <;> simp

theorem turning_pos_vel (dt : F) (inp : Input F) (p : Player F) :
    (turning dt inp p).pos = p.pos ∧ (turning dt inp p).vel = p.vel := by
  unfold turning; split_ifs <;> simp

theorem groundAccel_pos (ops : MathOps F) (dt : F) (inp : Input F) (p : Player F) :
    (groundAccel ops dt inp p).pos = p.pos := by
  unfold groundAccel; split_ifs <;> simp

theorem speedCap_pos (ops : MathOps F) (p : Player F) : (speedCap ops p).pos = p.pos := by
  unfold speedCap; split_ifs <;> simp

theorem gravity_pos (dt : F) (p : Player F) : (gravity dt p).pos = p.pos := by
  unfold gravity; split_ifs <;> simp

theorem animation_pos_vel (dt : F) (p : Player F) :
    (animation dt p).pos = p.pos ∧ (animation dt p).vel = p.vel := by
  unfold animation; dsimp only; split_ifs <;> simp

theorem messageTick_pos_vel (dt : F) (p : Player F) :
    (messageTick dt p).pos = p.pos ∧ (messageTick dt p).vel = p.vel := by
  unfold messageTick; split_ifs <;> simp

theorem trickActions_pos_vel (inp : Input F) (p : Player F) :
    (trickActions inp p).pos = p.pos ∧ (trickActions inp p).vel = p.vel
      ∧ (trickActions inp p).state = p.state ∧ (trickActions inp p).score = p.score := by
  unfold trickActions; dsimp only; split_ifs <;> simp

theorem jumpAction_pos (inp : Input F) (p : Player F) :
    (jumpAction inp p).pos = p.pos ∧ (jumpAction inp p).score = p.score := by
  unfold jumpAction; split_ifs <;> simp

/-! ### Phases are distinct -/

@[simp] theorem air_eq_grind : (STATE_AIR = STATE_GRIND) = False := by simp
@[simp] theorem air_eq_ground : (STATE_AIR = STATE_GROUND) = False := by simp
@[simp] theorem grind_eq_air : (STATE_GRIND = STATE_AIR) = False := by simp
@[simp] theorem grind_eq_ground : (STATE_GRIND = STATE_GROUND) = False := by simp
@[simp] theorem ground_eq_air : (STATE_GROUND = STATE_AIR) = False := by simp
@[simp] theorem ground_eq_grind : (STATE_GROUND = STATE_GRIND) = False := by simp

/-! ### The floor is never below 0 and the bounds check never fires -/

theorem floorRamp_ge (ops : MathOps F) (pos : Vector3 F) (acc : F × Bool) (ramp : Ramp F) :
    acc.1 ≤ (floorRamp ops pos acc ramp).1 := by
  unfold floorRamp; dsimp only
  split_ifs with h₁ h₂
  · exact le_of_lt h₂
  · exact le_refl _
  · exact le_refl _

theorem foldl_floorRamp_ge (ops : MathOps F) (pos : Vector3 F) (ramps : List (Ramp F)) :
    ∀ acc : F × Bool, acc.1 ≤ (ramps.foldl (floorRamp ops pos) acc).1 := by
  induction ramps with
  | nil => intro acc; exact le_refl _
  | cons ramp rest ih =>
    intro acc
    exact le_trans (floorRamp_ge ops pos acc ramp) (ih _)

theorem floorScan_nonneg (ops : MathOps F) (ramps : List (Ramp F)) (pos : Vector3 F) :
    0 ≤ (floorScan ops ramps pos).1 :=
  foldl_floorRamp_ge ops pos ramps (0, false)

theorem floorSnap_pos_y_ge (fh : F) (p : Player F) : fh ≤ (floorSnap fh p).pos.y := by
  unfold floorSnap; dsimp only
  split_ifs <;> (try dsimp only) <;> first | exact le_refl _ | exact le_of_lt (not_le.mp ‹_›)

theorem floorSnap_pos_y_of_le {fh : F} {p : Player F} (h : p.pos.y ≤ fh) :
    (floorSnap fh p).pos.y = fh := by
  unfold floorSnap; dsimp only
  rw [if_pos h]
  split_ifs <;> rfl

theorem beforeBounds_pos (ops : MathOps F) (lvl : Level F) (dt : F) (inp : Input F)
    (p : Player F) :
    (beforeBounds ops lvl dt inp p).pos = (collided ops lvl dt inp p).pos := by
  unfold beforeBounds
  rw [(messageTick_pos_vel dt _).1, (animation_pos_vel dt _).1, (trickActions_pos_vel inp _).1,
    (jumpAction_pos inp _).1]

theorem beforeBounds_pos_y_ge (ops : MathOps F) (lvl : Level F) (dt : F) (inp : Input F)
    (p : Player F) :
    resolvedFloor ops lvl dt inp p ≤ (beforeBounds ops lvl dt inp p).pos.y := by
  rw [beforeBounds_pos]
  exact floorSnap_pos_y_ge _ _

theorem resolvedFloor_nonneg (ops : MathOps F) (lvl : Level F) (dt : F) (inp : Input F)
    (p : Player F) : 0 ≤ resolvedFloor ops lvl dt inp p :=
  floorScan_nonneg ops lvl.ramps _

theorem updateGame_eq_beforeBounds (ops : MathOps F) (lvl : Level F) (dt : F) (inp : Input F)
    (p : Player F) : UpdateGame ops lvl dt inp p = beforeBounds ops lvl dt inp p := by
  unfold UpdateGame boundsCheck
  have h₁ := beforeBounds_pos_y_ge ops lvl dt inp p
  have h₂ := resolvedFloor_nonneg ops lvl dt inp p
  rw [if_neg]
  intro h
  linarith

/-! ### The combo invariant through the blocks -/

omit [LinearOrderedField F] in
theorem comboInv_of_same {p q : Player F} (h : SameScoring p q) (hp : ComboInv p) :
    ComboInv q := by
  obtain ⟨-, -, c, d⟩ := h
  unfold ComboInv at *
  rw [c, d]; exact hp

theorem comboInv_resetGame (p : Player F) : ComboInv (ResetGame p) := by
  simp [ComboInv, ResetGame]

theorem comboInv_resetKey (inp : Input F) {p : Player F} (hp : ComboInv p) :
    ComboInv (resetKey inp p) := by
  unfold Skate.resetKey; split_ifs
  · exact comboInv_resetGame p
  · exact hp

theorem comboInv_grindEntryRail (ops : MathOps F) (rail : Rail F) {p : Player F}
    (hp : ComboInv p) : ComboInv (grindEntryRail ops p rail) := by
  obtain ⟨a, b, c⟩ := hp
  unfold Skate.grindEntryRail ComboInv; dsimp only
  split_ifs <;> (try dsimp only) <;> refine ⟨by omega, by omega, fun h => by omega⟩

theorem comboInv_foldl_grindEntryRail (ops : MathOps F) (rails : List (Rail F)) :
    ∀ {p : Player F}, ComboInv p → ComboInv (rails.foldl (Skate.grindEntryRail ops) p) := by
  induction rails with
  | nil => intro p hp; exact hp
  | cons rail rest ih => intro p hp; exact ih (comboInv_grindEntryRail ops rail hp)

theorem comboInv_grindEntry (ops : MathOps F) (rails : List (Rail F)) {p : Player F}
    (hp : ComboInv p) : ComboInv (grindEntry ops rails p) := by
  unfold Skate.grindEntry; split_ifs
  · exact comboInv_foldl_grindEntryRail ops rails hp
  · exact hp

theorem comboInv_grindLogic (ops : MathOps F) (rails : List (Rail F)) (inp : Input F)
    {p : Player F} (hp : ComboInv p) : ComboInv (grindLogic ops rails inp p) := by
  obtain ⟨a, b, c⟩ := hp
  unfold Skate.grindLogic ComboInv
  split_ifs <;> (try dsimp only) <;> refine ⟨by omega, by omega, fun h => by omega⟩

theorem comboInv_floorSnap (fh : F) {p : Player F} (hp : ComboInv p) :
    ComboInv (floorSnap fh p) := by
  obtain ⟨a, b, c⟩ := hp
  unfold Skate.floorSnap ComboInv; dsimp only
  split_ifs <;> (try dsimp only) <;> refine ⟨by omega, by omega, fun h => by omega⟩

theorem comboInv_jumpAction (inp : Input F) {p : Player F} (hp : ComboInv p) :
    ComboInv (jumpAction inp p) := by
  obtain ⟨a, b, c⟩ := hp
  unfold Skate.jumpAction ComboInv
  split_ifs <;> (try dsimp only) <;> refine ⟨by omega, by omega, fun h => by omega⟩

theorem comboInv_trickActions (inp : Input F) {p : Player F} (hp : ComboInv p) :
    ComboInv (trickActions inp p) := by
  obtain ⟨a, b, c⟩ := hp
  unfold Skate.trickActions ComboInv; dsimp only
  split_ifs <;> (try dsimp only) <;> refine ⟨by omega, by omega, fun h => by omega⟩

theorem comboInv_boundsCheck {p : Player F} (hp : ComboInv p) : ComboInv (boundsCheck p) := by
  unfold Skate.boundsCheck; split_ifs
  · exact comboInv_resetGame p
  · exact hp

theorem comboInv_locomotion (ops : MathOps F) (dt : F) (inp : Input F) {p : Player F}
    (hp : ComboInv p) : ComboInv (locomotion ops dt inp p) :=
  comboInv_of_same
    ((((turning_scoring dt inp _).trans (groundAccel_scoring ops dt inp _)).trans
      (speedCap_scoring ops _)).trans (gravity_scoring dt _))
    (comboInv_resetKey inp hp)

theorem comboInv_integrated (ops : MathOps F) (lvl : Level F) (dt : F) (inp : Input F)
    {p : Player F} (hp : ComboInv p) : ComboInv (integrated ops lvl dt inp p) :=
  comboInv_of_same (integrate_scoring dt _)
    (comboInv_grindLogic ops lvl.rails inp
      (comboInv_grindEntry ops lvl.rails (comboInv_locomotion ops dt inp hp)))

theorem comboInv_updateGame (ops : MathOps F) (lvl : Level F) (dt : F) (inp : Input F)
    {p : Player F} (hp : ComboInv p) : ComboInv (UpdateGame ops lvl dt inp p) :=
  comboInv_boundsCheck
    (comboInv_of_same ((animation_scoring dt _).trans (messageTick_scoring dt _))
      (comboInv_trickActions inp
        (comboInv_jumpAction inp
          (comboInv_floorSnap _ (comboInv_integrated ops lvl dt inp hp)))))

theorem comboInv_runFrames (ops : MathOps F) (lvl : Level F) (frames : List (F × Input F)) :
    ∀ {p : Player F}, ComboInv p → ComboInv (runFrames ops lvl frames p) := by
  induction frames with
  | nil => intro p hp; exact hp
  | cons fr rest ih => intro p hp; exact ih (comboInv_updateGame ops lvl fr.1 fr.2 hp)

/-! ### The permanent score through the blocks -/

theorem resetKey_idle {inp : Input F} (h : inp.pressedR = false) (p : Player F) :
    resetKey inp p = p := by
  simp [resetKey, h]

theorem locomotion_scoring (ops : MathOps F) (dt : F) {inp : Input F}
    (h : inp.pressedR = false) (p : Player F) : SameScoring p (locomotion ops dt inp p) := by
  have := (((turning_scoring dt inp (resetKey inp p)).trans
    (groundAccel_scoring ops dt inp _)).trans (speedCap_scoring ops _)).trans
    (gravity_scoring dt _)
  rw [resetKey_idle h] at this
  unfold locomotion
  rw [resetKey_idle h]
  exact this

theorem grindEntryRail_score (ops : MathOps F) (p : Player F) (rail : Rail F) :
    (grindEntryRail ops p rail).score = p.score := by
  unfold grindEntryRail; dsimp only; split_ifs <;> rfl

theorem foldl_grindEntryRail_score (ops : MathOps F) (rails : List (Rail F)) :
    ∀ p : Player F, (rails.foldl (grindEntryRail ops) p).score = p.score := by
  induction rails with
  | nil => intro p; rfl
  | cons rail rest ih => intro p; exact (ih _).trans (grindEntryRail_score ops p rail)

theorem grindEntry_score (ops : MathOps F) (rails : List (Rail F)) (p : Player F) :
    (grindEntry ops rails p).score = p.score := by
  unfold grindEntry; split_ifs
  · exact foldl_grindEntryRail_score ops rails p
  · rfl

theorem grindLogic_score (ops : MathOps F) (rails : List (Rail F)) (inp : Input F)
    (p : Player F) : (grindLogic ops rails inp p).score = p.score := by
  unfold grindLogic; split_ifs <;> rfl

theorem comboNonneg_grindEntryRail (ops : MathOps F) (rail : Rail F) {p : Player F}
    (hp : ComboNonneg p) : ComboNonneg (grindEntryRail ops p rail) := by
  obtain ⟨a, b⟩ := hp
  unfold Skate.grindEntryRail ComboNonneg; dsimp only
  split_ifs <;> (try dsimp only) <;> exact ⟨by omega, by omega⟩

theorem comboNonneg_foldl_grindEntryRail (ops : MathOps F) (rails : List (Rail F)) :
    ∀ {p : Player F}, ComboNonneg p → ComboNonneg (rails.foldl (Skate.grindEntryRail ops) p) := by
  induction rails with
  | nil => intro p hp; exact hp
  | cons rail rest ih => intro p hp; exact ih (comboNonneg_grindEntryRail ops rail hp)

theorem comboNonneg_grindEntry (ops : MathOps F) (rails : List (Rail F)) {p : Player F}
    (hp : ComboNonneg p) : ComboNonneg (grindEntry ops rails p) := by
  unfold Skate.grindEntry; split_ifs
  · exact comboNonneg_foldl_grindEntryRail ops rails hp
  · exact hp

theorem comboNonneg_grindLogic (ops : MathOps F) (rails : List (Rail F)) (inp : Input F)
    {p : Player F} (hp : ComboNonneg p) : ComboNonneg (grindLogic ops rails inp p) := by
  obtain ⟨a, b⟩ := hp
  unfold Skate.grindLogic ComboNonneg
  split_ifs <;> (try dsimp only) <;> exact ⟨by omega, by omega⟩

theorem integrated_score (ops : MathOps F) (lvl : Level F) (dt : F) {inp : Input F}
    (h : inp.pressedR = false) (p : Player F) :
    (integrated ops lvl dt inp p).score = p.score := by
  unfold integrated beforeGrindLogic
  rw [(integrate_scoring dt _).2.1, grindLogic_score, grindEntry_score,
    (locomotion_scoring ops dt h p).2.1]

theorem comboNonneg_integrated (ops : MathOps F) (lvl : Level F) (dt : F) {inp : Input F}
    (h : inp.pressedR = false) {p : Player F} (hp : ComboNonneg p) :
    ComboNonneg (integrated ops lvl dt inp p) := by
  have h₀ : ComboNonneg (locomotion ops dt inp p) := by
    obtain ⟨-, -, c, d⟩ := locomotion_scoring ops dt h p
    unfold ComboNonneg at *
    rw [c, d]; exact hp
  have h₁ := comboNonneg_grindLogic ops lvl.rails inp (comboNonneg_grindEntry ops lvl.rails h₀)
  obtain ⟨-, -, c, d⟩ := integrate_scoring dt
    (Skate.grindLogic ops lvl.rails inp (Skate.grindEntry ops lvl.rails (locomotion ops dt inp p)))
  unfold ComboNonneg Skate.integrated beforeGrindLogic at *
  rw [c, d]; exact h₁

theorem floorSnap_score_landing {fh : F} {p : Player F} (h : Landing fh p)
    (hc : 0 ≤ p.comboScore) :
    (floorSnap fh p).score = p.score + p.comboScore * p.comboMult := by
  obtain ⟨h₁, h₂⟩ := h
  unfold floorSnap; dsimp only
  rw [if_pos h₁]
  rcases lt_or_eq_of_le hc with hc0 | hc0
  · by_cases hv : p.vel.y < 0 <;> simp [hv, hc0, h₂]
  · by_cases hv : p.vel.y < 0 <;> simp [hv, ← hc0, h₂]

theorem floorSnap_score_other {fh : F} {p : Player F} (h : ¬ Landing fh p) :
    (floorSnap fh p).score = p.score := by
  unfold Landing at h
  unfold floorSnap; dsimp only
  split_ifs <;> (try dsimp only) <;> first | rfl | (exfalso; simp_all)

theorem updateGame_score (ops : MathOps F) (lvl : Level F) (dt : F) (inp : Input F)
    (p : Player F) :
    (UpdateGame ops lvl dt inp p).score = (collided ops lvl dt inp p).score := by
  rw [updateGame_eq_beforeBounds]
  unfold beforeBounds
  rw [(messageTick_scoring dt _).2.1, (animation_scoring dt _).2.1,
    (trickActions_pos_vel inp _).2.2.2, (jumpAction_pos inp _).2]

/-! ### Grind entry and phase bookkeeping -/

theorem grindEntryRail_grind (ops : MathOps F) (rail : Rail F) {p : Player F}
    (h : p.state = STATE_GRIND) : (grindEntryRail ops p rail).state = STATE_GRIND := by
  unfold grindEntryRail; dsimp only; split_ifs <;> first | rfl | exact h

theorem foldl_grindEntryRail_grind (ops : MathOps F) (rails : List (Rail F)) :
    ∀ {p : Player F}, p.state = STATE_GRIND →
      (rails.foldl (grindEntryRail ops) p).state = STATE_GRIND := by
  induction rails with
  | nil => intro p h; exact h
  | cons rail rest ih => intro p h; exact ih (grindEntryRail_grind ops rail h)

theorem grindEntryRail_cases (ops : MathOps F) (rail : Rail F) (p : Player F) :
    (grindEntryRail ops p rail).state = STATE_GRIND ∨ grindEntryRail ops p rail = p := by
  unfold grindEntryRail; dsimp only
  split_ifs <;> first | exact Or.inl rfl | exact Or.inr rfl

theorem foldl_grindEntryRail_air (ops : MathOps F) (rails : List (Rail F)) :
    ∀ {p : Player F}, (rails.foldl (grindEntryRail ops) p).state = STATE_AIR →
      rails.foldl (grindEntryRail ops) p = p := by
  induction rails with
  | nil => intro p _; rfl
  | cons rail rest ih =>
    intro p h
    rw [List.foldl_cons] at h ⊢
    rcases grindEntryRail_cases ops rail p with hg | he
    · rw [foldl_grindEntryRail_grind ops rest hg] at h
      simp at h
    · rw [he] at h ⊢
      exact ih h

/-- When the grind-entry check leaves the phase Air, it has left the whole player alone. -/
theorem grindEntry_air (ops : MathOps F) (rails : List (Rail F)) {p : Player F}
    (h : (grindEntry ops rails p).state = STATE_AIR) : grindEntry ops rails p = p := by
  unfold grindEntry at h ⊢
  split_ifs with hc
  · rw [if_pos hc] at h
    exact foldl_grindEntryRail_air ops rails h
  · rfl

theorem grindLogic_of_not_grind (ops : MathOps F) (rails : List (Rail F)) (inp : Input F)
    {p : Player F} (h : p.state ≠ STATE_GRIND) : grindLogic ops rails inp p = p := by
  unfold grindLogic; rw [if_neg h]

theorem jumpAction_idle {inp : Input F} (h : inp.pressedSPACE = false) (p : Player F) :
    jumpAction inp p = p := by
  simp [jumpAction, h]

theorem jumpAction_of_air (inp : Input F) {p : Player F} (h : p.state = STATE_AIR) :
    jumpAction inp p = p := by
  simp [jumpAction, h]

theorem trickActions_of_not_air (inp : Input F) {p : Player F} (h : p.state ≠ STATE_AIR) :
    trickActions inp p = p := by
  unfold trickActions; rw [if_neg h]

theorem trickActions_idle {inp : Input F} (hJ : inp.pressedJ = false)
    (hK : inp.pressedK = false) (hL : inp.pressedL = false) (p : Player F) :
    trickActions inp p = p := by
  simp [trickActions, hJ, hK, hL]

/-- What the landing branch leaves behind. -/
theorem floorSnap_landing {fh : F} {p : Player F} (h : Landing fh p)
    (hc : 0 ≤ p.comboScore) (hm : p.comboScore = 0 → p.comboMult = 1) :
    (floorSnap fh p).state = STATE_GROUND ∧ (floorSnap fh p).comboScore = 0
      ∧ (floorSnap fh p).comboMult = 1 := by
  obtain ⟨h₁, h₂⟩ := h
  unfold floorSnap; dsimp only
  rw [if_pos h₁]
  rcases lt_or_eq_of_le hc with hc0 | hc0
  · by_cases hv : p.vel.y < 0 <;> simp [hv, hc0, h₂]
  · by_cases hv : p.vel.y < 0 <;> simp [hv, ← hc0, h₂, hm hc0.symm]

/-- Above the floor the collision code changes at most the phase, and only to Air. -/
theorem floorSnap_above {fh : F} {p : Player F} (h : fh < p.pos.y) :
    (floorSnap fh p).vel = p.vel ∧ (floorSnap fh p).score = p.score
      ∧ (floorSnap fh p).comboScore = p.comboScore ∧ (floorSnap fh p).comboMult = p.comboMult
      ∧ ((floorSnap fh p).state = p.state ∨ (floorSnap fh p).state = STATE_AIR) := by
  unfold floorSnap; dsimp only
  rw [if_neg (not_le.mpr h)]
  split_ifs
  · exact ⟨rfl, rfl, rfl, rfl, Or.inr rfl⟩
  · exact ⟨rfl, rfl, rfl, rfl, Or.inl rfl⟩

/-! ### Grind continuation -/

theorem foldl_onAnyRail (ops : MathOps F) (pos : Vector3 F) (rails : List (Rail F)) :
    ∀ flag : Bool,
      rails.foldl
          (fun flag rail =>
            let c := ClosestPointOnSegment pos rail.start rail.end
            if Vector3Distance ops pos c < 0.5 then true else flag)
          flag = true
        ↔ flag = true ∨ ∃ rail ∈ rails, NearRail ops pos rail := by
  induction rails with
  | nil => intro flag; simp
  | cons rail rest ih =>
    intro flag
    rw [List.foldl_cons, ih]
    unfold NearRail
    dsimp only
    by_cases h : Vector3Distance ops pos (ClosestPointOnSegment pos rail.start rail.end) < 0.5
    · simp [h]
    · simp [h]

theorem onAnyRail_iff (ops : MathOps F) (rails : List (Rail F)) (p : Player F) :
    onAnyRail ops rails p = true ↔ ∃ rail ∈ rails, NearRail ops p.pos rail := by
  unfold onAnyRail
  rw [foldl_onAnyRail]
  simp

/-- The exit branch of the grind continuation check (lines 246-248). -/
theorem grindLogic_exit (ops : MathOps F) (rails : List (Rail F)) (inp : Input F)
    {p : Player F} (hG : p.state = STATE_GRIND)
    (hFar : ∀ rail ∈ rails, ¬ NearRail ops p.pos rail) :
    grindLogic ops rails inp p
      = { p with state := STATE_AIR, vel := { p.vel with y := -2 } } := by
  have hno : ¬ (onAnyRail ops rails p = true) := by
    rw [onAnyRail_iff]
    rintro ⟨rail, hr, hn⟩
    exact hFar rail hr hn
  unfold grindLogic
  rw [if_pos hG, if_pos hno]

/-! ### The speed cap -/

theorem speedCap_normSq_le (ops : MathOps F) (hs : ExactSqrt ops) (p : Player F) :
    normSq (speedCap ops p).vel ≤ MAX_SPEED ^ 2 := by
  obtain ⟨hsq, hnn⟩ := hs
  have hn : 0 ≤ p.vel.x * p.vel.x + p.vel.y * p.vel.y + p.vel.z * p.vel.z :=
    add_nonneg (add_nonneg (mul_self_nonneg _) (mul_self_nonneg _)) (mul_self_nonneg _)
  have hL := hsq _ hn
  have hL0 := hnn (p.vel.x * p.vel.x + p.vel.y * p.vel.y + p.vel.z * p.vel.z)
  unfold speedCap Vector3Length MAX_SPEED normSq
  split_ifs with h
  · have hpos : (0 : F) <
        ops.sqrtf (p.vel.x * p.vel.x + p.vel.y * p.vel.y + p.vel.z * p.vel.z) := by
      linarith
    have hne := ne_of_gt hpos
    unfold Vector3Scale Vector3Normalize
    dsimp only
    rw [if_pos hne]
    dsimp only
    have key : (p.vel.x * p.vel.x + p.vel.y * p.vel.y + p.vel.z * p.vel.z)
        * (1 / ops.sqrtf (p.vel.x * p.vel.x + p.vel.y * p.vel.y + p.vel.z * p.vel.z)) ^ 2
        = 1 := by
      nth_rewrite 1 [← hL]
      field_simp
      ring
    have expand : ∀ k : F, (p.vel.x * k * 22) ^ 2 + (p.vel.y * k * 22) ^ 2
        + (p.vel.z * k * 22) ^ 2
        = ((p.vel.x * p.vel.x + p.vel.y * p.vel.y + p.vel.z * p.vel.z) * k ^ 2) * 22 ^ 2 := by
      intro k; ring
    rw [expand, key, one_mul]
  · have h' := not_lt.mp h
    nlinarith

/-! ### Vertical velocity while grinding -/

theorem grindFlat_resetKey (inp : Input F) {p : Player F} (hp : GrindFlat p) :
    GrindFlat (resetKey inp p) := by
  unfold resetKey; split_ifs
  · intro h; simp [ResetGame] at h
  · exact hp

theorem grindFlat_turning (dt : F) (inp : Input F) {p : Player F} (hp : GrindFlat p) :
    GrindFlat (turning dt inp p) := by
  unfold GrindFlat
  rw [(turning_scoring dt inp p).1, (turning_pos_vel dt inp p).2]; exact hp

theorem grindFlat_groundAccel (ops : MathOps F) (dt : F) (inp : Input F) {p : Player F}
    (hp : GrindFlat p) : GrindFlat (groundAccel ops dt inp p) := by
  unfold groundAccel; split_ifs with h
  · intro h'; simp [h] at h'
  · exact hp

theorem grindFlat_speedCap (ops : MathOps F) {p : Player F} (hp : GrindFlat p) :
    GrindFlat (speedCap ops p) := by
  unfold speedCap; split_ifs
  · intro h
    have hy : p.vel.y = 0 := hp h
    unfold Vector3Scale Vector3Normalize
    dsimp only
    split_ifs <;> simp [hy]
  · exact hp

theorem grindFlat_gravity (dt : F) {p : Player F} (hp : GrindFlat p) :
    GrindFlat (gravity dt p) := by
  unfold gravity; split_ifs with h
  · intro h'; exact absurd h' h
  · exact hp

theorem grindFlat_grindEntryRail (ops : MathOps F) {rail : Rail F}
    (hr : rail.start.y = rail.end.y) {p : Player F} (hp : GrindFlat p) :
    GrindFlat (grindEntryRail ops p rail) := by
  unfold grindEntryRail; dsimp only
  split_ifs <;> first
    | exact hp
    | (intro _
       unfold Vector3Scale Vector3Normalize Vector3Subtract
       dsimp only
       split_ifs <;> simp [hr])

theorem grindFlat_foldl_grindEntryRail (ops : MathOps F) (rails : List (Rail F))
    (hr : ∀ rail ∈ rails, rail.start.y = rail.end.y) :
    ∀ {p : Player F}, GrindFlat p → GrindFlat (rails.foldl (grindEntryRail ops) p) := by
  induction rails with
  | nil => intro p hp; exact hp
  | cons rail rest ih =>
    intro p hp
    exact ih (fun r h => hr r (List.mem_cons_of_mem _ h))
      (grindFlat_grindEntryRail ops (hr rail (List.mem_cons_self _ _)) hp)

theorem grindFlat_grindEntry (ops : MathOps F) (rails : List (Rail F))
    (hr : ∀ rail ∈ rails, rail.start.y = rail.end.y) {p : Player F} (hp : GrindFlat p) :
    GrindFlat (grindEntry ops rails p) := by
  unfold grindEntry; split_ifs
  · exact grindFlat_foldl_grindEntryRail ops rails hr hp
  · exact hp

theorem grindFlat_grindLogic (ops : MathOps F) (rails : List (Rail F)) (inp : Input F)
    {p : Player F} (hp : GrindFlat p) : GrindFlat (grindLogic ops rails inp p) := by
  unfold grindLogic GrindFlat
  split_ifs <;> intro h <;> first | exact hp h | (simp at h)

theorem grindFlat_integrate (dt : F) {p : Player F} (hp : GrindFlat p) :
    GrindFlat (integrate dt p) := hp

theorem grindFlat_floorSnap (fh : F) {p : Player F} (hp : GrindFlat p) :
    GrindFlat (floorSnap fh p) := by
  unfold floorSnap GrindFlat; dsimp only
  split_ifs <;> intro h <;> first | exact hp h | rfl | (simp at h)

theorem grindFlat_jumpAction (inp : Input F) {p : Player F} (hp : GrindFlat p) :
    GrindFlat (jumpAction inp p) := by
  unfold jumpAction; split_ifs
  · intro h; simp at h
  · exact hp

theorem grindFlat_trickActions (inp : Input F) {p : Player F} (hp : GrindFlat p) :
    GrindFlat (trickActions inp p) := by
  unfold GrindFlat
  rw [(trickActions_pos_vel inp p).2.2.1, (trickActions_pos_vel inp p).2.1]; exact hp

theorem grindFlat_animation (dt : F) {p : Player F} (hp : GrindFlat p) :
    GrindFlat (animation dt p) := by
  unfold GrindFlat
  rw [(animation_scoring dt p).1, (animation_pos_vel dt p).2]; exact hp

theorem grindFlat_messageTick (dt : F) {p : Player F} (hp : GrindFlat p) :
    GrindFlat (messageTick dt p) := by
  unfold GrindFlat
  rw [(messageTick_scoring dt p).1, (messageTick_pos_vel dt p).2]; exact hp

theorem grindFlat_updateGame (ops : MathOps F) (lvl : Level F)
    (hr : ∀ rail ∈ lvl.rails, rail.start.y = rail.end.y) (dt : F) (inp : Input F)
    {p : Player F} (hp : GrindFlat p) : GrindFlat (UpdateGame ops lvl dt inp p) := by
  rw [updateGame_eq_beforeBounds]
  exact grindFlat_messageTick dt (grindFlat_animation dt (grindFlat_trickActions inp
    (grindFlat_jumpAction inp (grindFlat_floorSnap _ (grindFlat_integrate dt
      (grindFlat_grindLogic ops lvl.rails inp (grindFlat_grindEntry ops lvl.rails hr
        (grindFlat_gravity dt (grindFlat_speedCap ops (grindFlat_groundAccel ops dt inp
          (grindFlat_turning dt inp (grindFlat_resetKey inp hp))))))))))))

theorem grindFlat_runFrames (ops : MathOps F) (lvl : Level F)
    (hr : ∀ rail ∈ lvl.rails, rail.start.y = rail.end.y) (frames : List (F × Input F)) :
    ∀ {p : Player F}, GrindFlat p → GrindFlat (runFrames ops lvl frames p) := by
  induction frames with
  | nil => intro p hp; exact hp
  | cons fr rest ih => intro p hp; exact ih (grindFlat_updateGame ops lvl hr fr.1 fr.2 hp)

/-! ### Evaluating a frame block by block -/

/-- A frame computed block by block: locomotion, grind entry, grind continuation with
integration, floor height, and what is left of the frame after the floor height is known. -/
theorem updateGame_steps (ops : MathOps F) (lvl : Level F) (dt : F) (inp : Input F)
    (p : Player F) {a b c : Player F} {f : F × Bool}
    (h₁ : locomotion ops dt inp p = a) (h₂ : grindEntry ops lvl.rails a = b)
    (h₃ : integrate dt (grindLogic ops lvl.rails inp b) = c)
    (h₄ : floorScan ops lvl.ramps c.pos = f) :
    beforeGrindLogic ops lvl dt inp p = b
      ∧ integrated ops lvl dt inp p = c ∧ resolvedFloor ops lvl dt inp p = f.1
      ∧ UpdateGame ops lvl dt inp p
        = messageTick dt (animation dt (trickActions inp (jumpAction inp (floorSnap f.1 c)))) := by
  have hb : beforeGrindLogic ops lvl dt inp p = b := by
    unfold beforeGrindLogic; rw [h₁, h₂]
  have hc : integrated ops lvl dt inp p = c := by
    unfold integrated; rw [hb, h₃]
  have hf : resolvedFloor ops lvl dt inp p = f.1 := by
    unfold resolvedFloor; rw [hc, h₄]
  refine ⟨hb, hc, hf, ?_⟩
  rw [updateGame_eq_beforeBounds]
  unfold beforeBounds collided
  rw [hc, hf]

theorem updateGame_of_reset (ops : MathOps F) (lvl : Level F) (dt : F) {inp : Input F}
    (p : Player F) (hR : inp.pressedR = true) :
    UpdateGame ops lvl dt inp p
      = UpdateGame ops lvl dt { inp with pressedR := false } (ResetGame p) := by
  simp [UpdateGame, beforeBounds, collided, resolvedFloor, integrated, beforeGrindLogic,
    locomotion, resetKey, hR, turning, turnInput, groundAccel, moveInput, grindLogic,
    jumpAction, trickActions]

/-! ### The facing angle through the blocks -/

theorem groundAccel_rot (ops : MathOps F) (dt : F) (inp : Input F) (p : Player F) :
    (groundAccel ops dt inp p).rot = p.rot := by
  unfold groundAccel; split_ifs <;> rfl

theorem speedCap_rot (ops : MathOps F) (p : Player F) : (speedCap ops p).rot = p.rot := by
  unfold speedCap; split_ifs <;> rfl

theorem gravity_rot (dt : F) (p : Player F) : (gravity dt p).rot = p.rot := by
  unfold gravity; split_ifs <;> rfl

theorem grindEntryRail_rot (ops : MathOps F) (p : Player F) (rail : Rail F) :
    (grindEntryRail ops p rail).rot = p.rot := by
  unfold grindEntryRail; dsimp only; split_ifs <;> rfl

theorem foldl_grindEntryRail_rot (ops : MathOps F) (rails : List (Rail F)) :
    ∀ p : Player F, (rails.foldl (grindEntryRail ops) p).rot = p.rot := by
  induction rails with
  | nil => intro p; rfl
  | cons rail rest ih => intro p; exact (ih _).trans (grindEntryRail_rot ops p rail)

theorem grindEntry_rot (ops : MathOps F) (rails : List (Rail F)) (p : Player F) :
    (grindEntry ops rails p).rot = p.rot := by
  unfold grindEntry; split_ifs
  · exact foldl_grindEntryRail_rot ops rails p
  · rfl

theorem grindLogic_rot (ops : MathOps F) (rails : List (Rail F)) (inp : Input F)
    (p : Player F) : (grindLogic ops rails inp p).rot = p.rot := by
  unfold grindLogic; split_ifs <;> rfl

theorem floorSnap_rot (fh : F) (p : Player F) : (floorSnap fh p).rot = p.rot := by
  unfold floorSnap; dsimp only; split_ifs <;> rfl

theorem jumpAction_rot (inp : Input F) (p : Player F) : (jumpAction inp p).rot = p.rot := by
  unfold jumpAction; split_ifs <;> rfl

theorem trickActions_rot (inp : Input F) (p : Player F) :
    (trickActions inp p).rot = p.rot := by
  unfold trickActions; dsimp only; split_ifs <;> rfl

theorem animation_rot (dt : F) (p : Player F) : (animation dt p).rot = p.rot := by
  unfold animation; dsimp only; split_ifs <;> rfl

theorem messageTick_rot (dt : F) (p : Player F) : (messageTick dt p).rot = p.rot := by
  unfold messageTick; split_ifs <;> rfl

/-- The facing angle at the end of a frame is the one the turning block leaves. -/
theorem updateGame_rot (ops : MathOps F) (lvl : Level F) (dt : F) (inp : Input F)
    (p : Player F) :
    (UpdateGame ops lvl dt inp p).rot = (turning dt inp (resetKey inp p)).rot := by
  rw [updateGame_eq_beforeBounds]
  unfold beforeBounds collided integrated beforeGrindLogic locomotion integrate
  rw [messageTick_rot, animation_rot, trickActions_rot, jumpAction_rot, floorSnap_rot]
  dsimp only
  rw [grindLogic_rot, grindEntry_rot, gravity_rot, speedCap_rot, groundAccel_rot]

theorem turning_rot (dt : F) (inp : Input F) (p : Player F) :
    (turning dt inp p).rot
      = if p.state ≠ STATE_GRIND then p.rot + turnInput inp * TURN_SPEED else p.rot := by
  unfold turning; split_ifs <;> rfl

/-! ### What is left of the frame after the collision code -/

/-- After the collision code, with no trick key pressed, only the jump block touches phase,
velocity and scores. -/
theorem updateGame_after_collision (ops : MathOps F) (lvl : Level F) (dt : F) {inp : Input F}
    (p : Player F) (hJ : inp.pressedJ = false) (hK : inp.pressedK = false)
    (hL : inp.pressedL = false) :
    SameScoring (jumpAction inp (collided ops lvl dt inp p)) (UpdateGame ops lvl dt inp p)
      ∧ (UpdateGame ops lvl dt inp p).vel = (jumpAction inp (collided ops lvl dt inp p)).vel := by
  rw [updateGame_eq_beforeBounds]
  unfold beforeBounds
  rw [trickActions_idle hJ hK hL]
  exact ⟨(animation_scoring dt _).trans (messageTick_scoring dt _),
    by rw [(messageTick_pos_vel dt _).2, (animation_pos_vel dt _).2]⟩

theorem jumpAction_pressed {inp : Input F} (h : inp.pressedSPACE = true) {p : Player F}
    (hs : p.state = STATE_GROUND ∨ p.state = STATE_GRIND) :
    jumpAction inp p
      = { p with
          vel := { p.vel with y := JUMP_FORCE }
          state := STATE_AIR
          trickText := "Ollie"
          messageTimer := 1
          comboScore := p.comboScore + 10 } := by
  unfold jumpAction
  rw [if_pos ⟨h, hs⟩]

/-- The phase test of the collision code for an airborne player. -/
theorem floorSnap_air_ground_iff {fh : F} {p : Player F} (h : p.state = STATE_AIR) :
    (floorSnap fh p).state = STATE_GROUND ↔ p.pos.y ≤ fh := by
  unfold floorSnap; dsimp only
  constructor
  · intro hg
    by_contra hn
    rw [if_neg hn] at hg
    split_ifs at hg; simp_all
  · intro hle
    rw [if_pos hle]
    by_cases hv : p.vel.y < 0 <;> by_cases hc : p.comboScore > 0 <;> simp [hv, hc, h]

/-- The vertical velocity the landing branch leaves. -/
theorem floorSnap_vel_y_of_le {fh : F} {p : Player F} (h : p.pos.y ≤ fh) :
    (floorSnap fh p).vel.y = if p.vel.y < 0 then 0 else p.vel.y := by
  unfold floorSnap; dsimp only
  rw [if_pos h]
  split_ifs <;> rfl

/-! ### Closest point on a segment -/

omit [LinearOrderedField F] in
theorem vector3_eq_of_components {a b : Vector3 F} (hx : a.x = b.x) (hy : a.y = b.y)
    (hz : a.z = b.z) : a = b := by
  cases a; cases b; simp_all

theorem dot_self_pos {a b : Vector3 F} (h : a ≠ b) :
    0 < Vector3DotProduct (Vector3Subtract b a) (Vector3Subtract b a) := by
  unfold Vector3DotProduct Vector3Subtract
  dsimp only
  by_contra hn
  have hx := mul_self_nonneg (b.x - a.x)
  have hy := mul_self_nonneg (b.y - a.y)
  have hz := mul_self_nonneg (b.z - a.z)
  have h0x : (b.x - a.x) * (b.x - a.x) = 0 := by linarith
  have h0y : (b.y - a.y) * (b.y - a.y) = 0 := by linarith
  have h0z : (b.z - a.z) * (b.z - a.z) = 0 := by linarith
  apply h
  apply vector3_eq_of_components
  · have := mul_self_eq_zero.mp h0x; linarith
  · have := mul_self_eq_zero.mp h0y; linarith
  · have := mul_self_eq_zero.mp h0z; linarith

theorem clamp_unit_cases (t : F) :
    (t < 0 ∧ Clamp t 0 1 = 0) ∨ (0 ≤ t ∧ t ≤ 1 ∧ Clamp t 0 1 = t) ∨ (1 < t ∧ Clamp t 0 1 = 1) := by
  unfold Clamp
  dsimp only
  by_cases h₀ : t < 0
  · left
    refine ⟨h₀, ?_⟩
    rw [if_pos h₀, if_neg (by norm_num)]
  · by_cases h₁ : t > 1
    · right; right
      refine ⟨h₁, ?_⟩
      rw [if_neg h₀, if_pos h₁]
    · right; left
      refine ⟨not_lt.mp h₀, not_lt.mp h₁, ?_⟩
      rw [if_neg h₀, if_neg h₁]

theorem clamp_unit_mem (t : F) : 0 ≤ Clamp t 0 1 ∧ Clamp t 0 1 ≤ 1 := by
  rcases clamp_unit_cases t with ⟨_, h⟩ | ⟨h₀, h₁, h⟩ | ⟨_, h⟩ <;> rw [h]
  · exact ⟨le_refl _, zero_le_one⟩
  · exact ⟨h₀, h₁⟩
  · exact ⟨zero_le_one, le_refl _⟩

theorem closestPoint_eq_pointAt (p a b : Vector3 F) :
    ClosestPointOnSegment p a b
      = pointAt a b
          (Clamp (Vector3DotProduct (Vector3Subtract p a) (Vector3Subtract b a)
            / Vector3DotProduct (Vector3Subtract b a) (Vector3Subtract b a)) 0 1) := rfl

/-- Squared distance from `p` to the point at parameter `s`, as a quadratic in `s`. -/
theorem distSq_pointAt (p a b : Vector3 F) (s : F) :
    distSq p (pointAt a b s)
      = distSq p a
        - 2 * s * Vector3DotProduct (Vector3Subtract p a) (Vector3Subtract b a)
        + s * s * Vector3DotProduct (Vector3Subtract b a) (Vector3Subtract b a) := by
  unfold distSq pointAt Vector3Add Vector3Scale Vector3Subtract Vector3DotProduct
  dsimp only
  ring

/-- The clamped projection minimises the squared distance over the segment. -/
theorem closestPoint_distSq_le {p a b : Vector3 F} (hab : a ≠ b) {s : F} (h₀ : 0 ≤ s)
    (h₁ : s ≤ 1) :
    distSq p (ClosestPointOnSegment p a b) ≤ distSq p (pointAt a b s) := by
  have hD := dot_self_pos hab
  rw [closestPoint_eq_pointAt, distSq_pointAt, distSq_pointAt]
  set D := Vector3DotProduct (Vector3Subtract b a) (Vector3Subtract b a) with hDdef
  set W := Vector3DotProduct (Vector3Subtract p a) (Vector3Subtract b a) with hWdef
  have hW : W = (W / D) * D := by field_simp
  rcases clamp_unit_cases (W / D) with ⟨ht, hc⟩ | ⟨-, -, hc⟩ | ⟨ht, hc⟩ <;> rw [hc]
  · have hWneg : W < 0 := by
      rw [hW]; exact mul_neg_of_neg_of_pos ht hD
    nlinarith [mul_nonneg h₀ (le_of_lt hD), mul_nonneg (mul_nonneg h₀ h₀) (le_of_lt hD)]
  · have key : (distSq p a - 2 * s * W + s * s * D)
        - (distSq p a - 2 * (W / D) * W + W / D * (W / D) * D)
        = (s - W / D) * (s - W / D) * D := by
      field_simp
      ring
    have := mul_nonneg (mul_self_nonneg (s - W / D)) (le_of_lt hD)
    linarith
  · have hWD : D < W := by
      have := mul_lt_mul_of_pos_right ht hD
      rw [one_mul, ← hW] at this
      exact this
    have h1s : 0 ≤ 1 - s := by linarith
    nlinarith [mul_nonneg h1s (le_of_lt hD), mul_nonneg (mul_nonneg h1s h1s) (le_of_lt hD),
      mul_nonneg h1s (le_of_lt (sub_pos.mpr hWD))]

/-! ### Floor height as a maximum -/

theorem floorRamp_of_in {ops : MathOps F} {pos : Vector3 F} {ramp : Ramp F}
    (h : InFootprint ops pos ramp) (acc : F × Bool) :
    floorRamp ops pos acc ramp
      = if rampHeight ops pos ramp > acc.1 then (rampHeight ops pos ramp, true) else acc :=
  if_pos h

theorem floorRamp_of_not_in {ops : MathOps F} {pos : Vector3 F} {ramp : Ramp F}
    (h : ¬ InFootprint ops pos ramp) (acc : F × Bool) :
    floorRamp ops pos acc ramp = acc :=
  if_neg h

/-- Inside the footprint the depth parameter lies strictly between 0 and 1. -/
theorem rampT_mem {ops : MathOps F} {pos : Vector3 F} {ramp : Ramp F}
    (h : InFootprint ops pos ramp) : 0 ≤ rampT ops pos ramp ∧ rampT ops pos ramp ≤ 1 := by
  obtain ⟨-, hz⟩ := h
  rw [abs_lt] at hz
  obtain ⟨h₁, h₂⟩ := hz
  have hs : 0 < ramp.size.z := by linarith
  unfold rampT
  constructor
  · apply div_nonneg _ (le_of_lt hs)
    linarith
  · rw [div_le_one hs]
    linarith

theorem rampHeight_nonneg {ops : MathOps F} {pos : Vector3 F} {ramp : Ramp F}
    (h : InFootprint ops pos ramp) (hy : 0 ≤ ramp.size.y) : 0 ≤ rampHeight ops pos ramp :=
  mul_nonneg (rampT_mem h).1 hy

/-- The ramp loop from an accumulator `acc`: the result is at least `acc` and at least the
height of every ramp whose footprint holds the point, and it is `acc` or one of those
heights. -/
theorem foldl_floorRamp_max (ops : MathOps F) (pos : Vector3 F) (ramps : List (Ramp F)) :
    ∀ acc : F × Bool,
      acc.1 ≤ (ramps.foldl (floorRamp ops pos) acc).1
        ∧ (∀ ramp ∈ ramps, InFootprint ops pos ramp →
            rampHeight ops pos ramp ≤ (ramps.foldl (floorRamp ops pos) acc).1)
        ∧ ((ramps.foldl (floorRamp ops pos) acc).1 = acc.1
            ∨ ∃ ramp ∈ ramps, InFootprint ops pos ramp
                ∧ (ramps.foldl (floorRamp ops pos) acc).1 = rampHeight ops pos ramp) := by
  induction ramps with
  | nil =>
    intro acc
    exact ⟨le_refl _, fun _ h => absurd h (List.not_mem_nil _), Or.inl rfl⟩
  | cons ramp rest ih =>
    intro acc
    rw [List.foldl_cons]
    obtain ⟨h₁, h₂, h₃⟩ := ih (floorRamp ops pos acc ramp)
    have hstep := floorRamp_ge ops pos acc ramp
    have hhead : InFootprint ops pos ramp →
        rampHeight ops pos ramp ≤ (floorRamp ops pos acc ramp).1 := by
      intro hin
      rw [floorRamp_of_in hin]
      split_ifs with hgt
      · exact le_refl _
      · exact not_lt.mp hgt
    have hval : (floorRamp ops pos acc ramp).1 = acc.1
        ∨ (InFootprint ops pos ramp
            ∧ (floorRamp ops pos acc ramp).1 = rampHeight ops pos ramp) := by
      by_cases hin : InFootprint ops pos ramp
      · rw [floorRamp_of_in hin]
        split_ifs with hgt
        · exact Or.inr ⟨hin, rfl⟩
        · exact Or.inl rfl
      · rw [floorRamp_of_not_in hin]
        exact Or.inl rfl
    refine ⟨le_trans hstep h₁, ?_, ?_⟩
    · intro r hr hin
      rcases List.mem_cons.mp hr with rfl | hr'
      · exact le_trans (hhead hin) h₁
      · exact h₂ r hr' hin
    · rcases h₃ with h | ⟨r, hr, hin, h⟩
      · rcases hval with hv | ⟨hin, hv⟩
        · exact Or.inl (h.trans hv)
        · exact Or.inr ⟨ramp, List.mem_cons_self _ _, hin, h.trans hv⟩
      · exact Or.inr ⟨r, List.mem_cons_of_mem _ hr, hin, h⟩

/-! ### Rails whose segment lies on the ground -/

theorem initLevel_rails : (InitLevel : Level F).rails = [redRail, goldRail] := rfl

theorem grindEntryRail_of_not_snap {ops : MathOps F} {p : Player F} {rail : Rail F}
    (h : ¬ SnapCondition ops p rail) : grindEntryRail ops p rail = p :=
  if_neg h

/-- What the snap branch (lines 213-232) leaves of height, phase and scores. -/
theorem grindEntryRail_of_snap {ops : MathOps F} {p : Player F} {rail : Rail F}
    (h : SnapCondition ops p rail) :
    (grindEntryRail ops p rail).state = STATE_GRIND
      ∧ (grindEntryRail ops p rail).pos.y = rail.height + 0.2
      ∧ (grindEntryRail ops p rail).comboScore = p.comboScore + 50
      ∧ (grindEntryRail ops p rail).comboMult = p.comboMult + 1 := by
  have h' : Vector3Distance ops p.pos (ClosestPointOnSegment p.pos rail.start rail.end)
      < RAIL_SNAP_DIST ∧ p.pos.y ≥ rail.height - 0.5 ∧ p.pos.y ≤ rail.height + 1 := h
  unfold grindEntryRail
  dsimp only
  rw [if_pos h']
  exact ⟨rfl, rfl, rfl, rfl⟩

/-- With an exact square root, a distance below `r` has its square below `r * r`. -/
theorem distSq_lt_of_distance_lt {ops : MathOps F} (hs : ExactSqrt ops) {a b : Vector3 F}
    {r : F} (h : Vector3Distance ops a b < r) : distSq a b < r * r := by
  obtain ⟨hsq, hnn⟩ := hs
  have hn : 0 ≤ distSq a b :=
    add_nonneg (add_nonneg (mul_self_nonneg _) (mul_self_nonneg _)) (mul_self_nonneg _)
  have h₀ : 0 ≤ ops.sqrtf (distSq a b) := hnn _
  have h₁ : ops.sqrtf (distSq a b) < r := h
  calc distSq a b = ops.sqrtf (distSq a b) * ops.sqrtf (distSq a b) := (hsq _ hn).symm
    _ < r * r := mul_self_lt_mul_self h₀ h₁

/-- The closest point on a segment whose end points have height 0 has height 0. -/
theorem closestPoint_y_of_ground (p : Vector3 F) {a b : Vector3 F} (ha : a.y = 0)
    (hb : b.y = 0) : (ClosestPointOnSegment p a b).y = 0 := by
  unfold ClosestPointOnSegment Vector3Add Vector3Scale Vector3Subtract
  dsimp only
  rw [ha, hb]
  ring

/-- A rail segment on the ground is at least as far from a point as the point is high. -/
theorem height_sq_le_distSq (p : Vector3 F) {a b : Vector3 F} (ha : a.y = 0) (hb : b.y = 0) :
    p.y * p.y ≤ distSq p (ClosestPointOnSegment p a b) := by
  have hy := closestPoint_y_of_ground p ha hb
  unfold distSq
  rw [hy]
  nlinarith [mul_self_nonneg ((ClosestPointOnSegment p a b).x - p.x),
    mul_self_nonneg ((ClosestPointOnSegment p a b).z - p.z)]

/-- With an exact square root, a point within distance `r` of a rail segment on the ground
is lower than `r`. -/
theorem height_lt_of_distance_lt {ops : MathOps F} (hs : ExactSqrt ops) (p : Vector3 F)
    {a b : Vector3 F} (ha : a.y = 0) (hb : b.y = 0) {r : F} (hr : 0 ≤ r)
    (h : Vector3Distance ops p (ClosestPointOnSegment p a b) < r) : p.y < r := by
  have h₁ := distSq_lt_of_distance_lt hs h
  have h₂ := height_sq_le_distSq p ha hb
  by_contra hn
  have h₃ : r ≤ p.y := not_lt.mp hn
  have := mul_self_le_mul_self hr h₃
  linarith

theorem goldRail_no_snap {ops : MathOps F} (hs : ExactSqrt ops) (p : Player F) :
    ¬ SnapCondition ops p goldRail := by
  rintro ⟨hd, hlo, -⟩
  have h := height_lt_of_distance_lt hs p.pos (a := (goldRail : Rail F).start)
    (b := (goldRail : Rail F).end) rfl rfl (by norm_num [RAIL_SNAP_DIST]) hd
  simp only [goldRail, RAIL_SNAP_DIST] at h hlo
  norm_num at h hlo
  linarith

/-- With an exact square root, no rail of `InitLevel` is within 0.5 of a point that is at
least 0.5 high. -/
theorem initLevel_not_near {ops : MathOps F} (hs : ExactSqrt ops) {pos : Vector3 F}
    (hy : 0.5 ≤ pos.y) : ∀ rail ∈ (InitLevel : Level F).rails, ¬ NearRail ops pos rail := by
  intro rail hr hn
  rw [initLevel_rails] at hr
  simp only [List.mem_cons, List.mem_singleton, List.not_mem_nil, or_false] at hr
  have h : pos.y < 0.5 := by
    rcases hr with rfl | rfl
    · exact height_lt_of_distance_lt hs pos (a := (redRail : Rail F).start)
        (b := (redRail : Rail F).end) rfl rfl (by norm_num) hn
    · exact height_lt_of_distance_lt hs pos (a := (goldRail : Rail F).start)
        (b := (goldRail : Rail F).end) rfl rfl (by norm_num) hn
  linarith

/-- In `InitLevel`, with an exact square root, a grind entry from phase Air is a snap onto
the red rail and nothing else. -/
theorem initLevel_grindEntry_snap {ops : MathOps F} (hs : ExactSqrt ops) {q : Player F}
    (hAir : q.state = STATE_AIR)
    (hSnap : (grindEntry ops (InitLevel : Level F).rails q).state = STATE_GRIND) :
    SnapCondition ops q redRail
      ∧ grindEntry ops (InitLevel : Level F).rails q = grindEntryRail ops q redRail := by
  have hfold : ∀ q' : Player F, List.foldl (grindEntryRail ops) q' [redRail, goldRail]
      = grindEntryRail ops q' redRail := by
    intro q'
    rw [List.foldl_cons, List.foldl_cons, List.foldl_nil]
    exact grindEntryRail_of_not_snap (goldRail_no_snap hs _)
  have hcases : grindEntry ops (InitLevel : Level F).rails q = grindEntryRail ops q redRail
      ∨ grindEntry ops (InitLevel : Level F).rails q = q := by
    unfold grindEntry
    rw [initLevel_rails]
    split_ifs
    · exact Or.inl (hfold q)
    · exact Or.inr rfl
  by_cases hc : SnapCondition ops q redRail
  · refine ⟨hc, ?_⟩
    rcases hcases with h | h
    · exact h
    · rw [h, hAir] at hSnap; simp at hSnap
  · exfalso
    rcases hcases with h | h
    · rw [h, grindEntryRail_of_not_snap hc, hAir] at hSnap; simp at hSnap
    · rw [h, hAir] at hSnap; simp at hSnap

end Lemmas

/-! ## The runtime functions over the real numbers -/

section RealEval

@[simp] theorem realOps_sqrtf : realOps.sqrtf = Real.sqrt := rfl
@[simp] theorem realOps_sinf : realOps.sinf = Real.sin := rfl
@[simp] theorem realOps_cosf : realOps.cosf = Real.cos := rfl
@[simp] theorem realOps_toInt (x : ℝ) : realOps.toInt x = if 0 ≤ x then ⌊x⌋ else ⌈x⌉ := rfl

@[simp] theorem deg2Rad_zero : Deg2Rad realOps 0 = 0 := by simp [Deg2Rad]

theorem deg2Rad_neg90 : Deg2Rad realOps (-90) = -(Real.pi / 2) := by
  simp [Deg2Rad, realOps]; ring

theorem deg2Rad_neg180 : Deg2Rad realOps (-180) = -Real.pi := by
  simp [Deg2Rad, realOps]; ring

@[simp] theorem cos_deg_neg90 : Real.cos (Deg2Rad realOps (-90)) = 0 := by
  rw [deg2Rad_neg90, Real.cos_neg, Real.cos_pi_div_two]

@[simp] theorem sin_deg_neg90 : Real.sin (Deg2Rad realOps (-90)) = -1 := by
  rw [deg2Rad_neg90, Real.sin_neg, Real.sin_pi_div_two]

@[simp] theorem cos_deg_neg180 : Real.cos (Deg2Rad realOps (-180)) = -1 := by
  rw [deg2Rad_neg180, Real.cos_neg, Real.cos_pi]

@[simp] theorem sin_deg_neg180 : Real.sin (Deg2Rad realOps (-180)) = 0 := by
  rw [deg2Rad_neg180, Real.sin_neg, Real.sin_pi, neg_zero]

/-- Comparing a length with a non-negative bound is comparing squares. -/
theorem real_length_gt (v : Vector3 ℝ) {r : ℝ} (hr : 0 ≤ r) :
    (Vector3Length realOps v > r) = (r ^ 2 < v.x * v.x + v.y * v.y + v.z * v.z) :=
  propext (Real.lt_sqrt hr)

/-- Comparing a distance with a positive bound is comparing squares. -/
theorem real_distance_lt (a b : Vector3 ℝ) {r : ℝ} (hr : 0 < r) :
    (Vector3Distance realOps a b < r)
      = ((b.x - a.x) * (b.x - a.x) + (b.y - a.y) * (b.y - a.y)
          + (b.z - a.z) * (b.z - a.z) < r ^ 2) :=
  propext (Real.sqrt_lt' hr)

/-- No ramp of `InitLevel` lies under the points with x = 5.5 and z = 20. -/
theorem floorScan_beside_red_rail (y : ℝ) :
    floorScan realOps (InitLevel : Level ℝ).ramps ⟨5.5, y, 20⟩ = (0, false) := by
  norm_num [floorScan, InitLevel, floorRamp, Vector3Subtract, abs_lt]

/-- No ramp of `InitLevel` lies under the reset position. -/
theorem floorScan_at_start (y : ℝ) :
    floorScan realOps (InitLevel : Level ℝ).ramps ⟨0, y, 0⟩ = (0, false) := by
  norm_num [floorScan, InitLevel, floorRamp, Vector3Subtract, abs_lt]

/-- The frame of `resetInput` on `fallingPlayer`, dt = 1/100, in `InitLevel`. -/
theorem reset_frame_eval :
    UpdateGame realOps InitLevel (1 / 100) resetInput fallingPlayer
      = playerAt ⟨0, 0.4965, 0⟩ ⟨0, -0.35, 0⟩ STATE_AIR 0 0 1 := by
  have h := (updateGame_steps realOps InitLevel (1 / 100) resetInput fallingPlayer
    (a := playerAt ⟨0, 0.5, 0⟩ ⟨0, -0.35, 0⟩ STATE_GROUND 0 0 1)
    (b := playerAt ⟨0, 0.5, 0⟩ ⟨0, -0.35, 0⟩ STATE_GROUND 0 0 1)
    (c := playerAt ⟨0, 0.4965, 0⟩ ⟨0, -0.35, 0⟩ STATE_GROUND 0 0 1)
    (f := (0, false))
    (by norm_num [locomotion, resetKey, resetInput, ResetGame, turning, turnInput, groundAccel,
      moveInput, forward, speedCap, gravity, idleInput, playerAt, real_length_gt, MAX_SPEED,
      GRAVITY, TURN_SPEED, ACCEL, FRICTION, Lerp, Vector3Add, Vector3Scale])
    (by norm_num [grindEntry, playerAt])
    (by norm_num [grindLogic, integrate, playerAt, Vector3Add, Vector3Scale])
    (floorScan_at_start _)).2.2.2
  rw [h]
  norm_num [floorSnap, jumpAction, trickActions, animation, messageTick, playerAt, resetInput,
    idleInput]

/-- The idle frame on `sunkPlayer`, dt = 1/100, in `InitLevel`: position and score. -/
theorem sunk_frame_eval :
    (UpdateGame realOps InitLevel (1 / 100) idleInput sunkPlayer).pos.y = 0
      ∧ (UpdateGame realOps InitLevel (1 / 100) idleInput sunkPlayer).state = STATE_GROUND
      ∧ (UpdateGame realOps InitLevel (1 / 100) idleInput sunkPlayer).score = 457 := by
  have h := (updateGame_steps realOps InitLevel (1 / 100) idleInput sunkPlayer
    (a := playerAt ⟨5.5, -11, 20⟩ ⟨0, -5.35, 0⟩ STATE_AIR 7 150 3)
    (b := playerAt ⟨5.5, -11, 20⟩ ⟨0, -5.35, 0⟩ STATE_AIR 7 150 3)
    (c := playerAt ⟨5.5, -11.0535, 20⟩ ⟨0, -5.35, 0⟩ STATE_AIR 7 150 3)
    (f := (0, false))
    (by norm_num [locomotion, resetKey, sunkPlayer, turning, turnInput, groundAccel,
      speedCap, gravity, idleInput, playerAt, real_length_gt, MAX_SPEED,
      GRAVITY, TURN_SPEED, Lerp])
    (by norm_num [grindEntry, InitLevel, grindEntryRail, playerAt])
    (by norm_num [grindLogic, integrate, playerAt, Vector3Add, Vector3Scale])
    (floorScan_beside_red_rail _)).2.2.2
  rw [h]
  norm_num [floorSnap, jumpAction, trickActions, animation, messageTick, playerAt, idleInput]

/-- No ramp of `InitLevel` lies under the point just past the far end of the red rail. -/
theorem floorScan_past_red_rail (y : ℝ) :
    floorScan realOps (InitLevel : Level ℝ).ramps ⟨5, y, 41.1⟩ = (0, false) := by
  norm_num [floorScan, InitLevel, floorRamp, Vector3Subtract, abs_lt]

/-- Nothing before the grind continuation check changes `overshotPlayer` (dt = 1/100). -/
theorem overshot_beforeGrindLogic :
    beforeGrindLogic realOps InitLevel (1 / 100) idleInput overshotPlayer = overshotPlayer := by
  norm_num [beforeGrindLogic, locomotion, resetKey, turning, groundAccel, speedCap, gravity,
    grindEntry, overshotPlayer, idleInput, playerAt, real_length_gt, MAX_SPEED]

/-- Both rails of `InitLevel` are farther than 0.5 from `overshotPlayer`. -/
theorem overshot_far_from_rails :
    ∀ rail ∈ (InitLevel : Level ℝ).rails, ¬ NearRail realOps (overshotPlayer : Player ℝ).pos rail := by
  intro rail hr
  simp only [InitLevel, List.mem_cons, List.mem_singleton, List.not_mem_nil, or_false] at hr
  rcases hr with rfl | rfl <;>
    norm_num [NearRail, real_distance_lt, ClosestPointOnSegment, Clamp, Vector3Subtract,
      Vector3DotProduct, Vector3Add, Vector3Scale, overshotPlayer, playerAt]

/-- The idle frame on `overshotPlayer`, dt = 1/100, in `InitLevel`: integrated player and
floor height. -/
theorem overshot_frame_eval :
    integrated realOps InitLevel (1 / 100) idleInput overshotPlayer
        = playerAt ⟨5, 1.68, 41.1⟩ ⟨0, -2, 10⟩ STATE_AIR 7 150 3
      ∧ resolvedFloor realOps InitLevel (1 / 100) idleInput overshotPlayer = 0 := by
  have hb := overshot_beforeGrindLogic
  have hx := grindLogic_exit realOps (InitLevel : Level ℝ).rails idleInput
    (p := overshotPlayer) rfl overshot_far_from_rails
  have hi : integrated realOps InitLevel (1 / 100) idleInput overshotPlayer
      = playerAt ⟨5, 1.68, 41.1⟩ ⟨0, -2, 10⟩ STATE_AIR 7 150 3 := by
    unfold integrated
    rw [hb, hx]
    norm_num [integrate, overshotPlayer, playerAt, Vector3Add, Vector3Scale]
  refine ⟨hi, ?_⟩
  unfold resolvedFloor
  rw [hi]
  exact congrArg Prod.fst (floorScan_past_red_rail _)

theorem realOps_exactSqrt : ExactSqrt realOps :=
  ⟨fun _ hx => Real.mul_self_sqrt hx, fun x => Real.sqrt_nonneg x⟩

/-- The idle frame on `fallingPlayer`, dt = 1/100, in `InitLevel`. -/
theorem falling_frame_eval :
    UpdateGame realOps InitLevel (1 / 100) idleInput fallingPlayer
      = playerAt ⟨5.5, 1.7465, 20⟩ ⟨0, -5.35, 0⟩ STATE_AIR 7 150 3 := by
  have h := (updateGame_steps realOps InitLevel (1 / 100) idleInput fallingPlayer
    (a := playerAt ⟨5.5, 1.8, 20⟩ ⟨0, -5.35, 0⟩ STATE_AIR 7 150 3)
    (b := playerAt ⟨5.5, 1.8, 20⟩ ⟨0, -5.35, 0⟩ STATE_AIR 7 150 3)
    (c := playerAt ⟨5.5, 1.7465, 20⟩ ⟨0, -5.35, 0⟩ STATE_AIR 7 150 3)
    (f := (0, false))
    (by norm_num [locomotion, resetKey, fallingPlayer, turning, turnInput, groundAccel,
      speedCap, gravity, idleInput, playerAt, real_length_gt, MAX_SPEED,
      GRAVITY, TURN_SPEED, Lerp])
    (by norm_num [grindEntry, InitLevel, grindEntryRail, playerAt, real_distance_lt,
      RAIL_SNAP_DIST, ClosestPointOnSegment, Clamp, Vector3Subtract, Vector3DotProduct,
      Vector3Add, Vector3Scale])
    (by norm_num [grindLogic, integrate, playerAt, Vector3Add, Vector3Scale])
    (floorScan_beside_red_rail _)).2.2.2
  rw [h]
  norm_num [floorSnap, jumpAction, trickActions, animation, messageTick, playerAt, idleInput]

/-- A frame on `landingPlayer`, dt = 1/100, in `InitLevel`, whatever the jump and trick
keys: no rail is entered, the integrated height is -0.0335 and the floor height is 0. -/
theorem landing_frame_steps (inp : Input ℝ) (hR : inp.pressedR = false) :
    beforeGrindLogic realOps InitLevel (1 / 100) inp landingPlayer
        = { playerAt ⟨5.5, 0.02, 20⟩ ⟨0, -5.35, 0⟩ STATE_AIR 7 150 3 with
            rot := turnInput inp * TURN_SPEED
            lean := Lerp 0 (turnInput inp * -15) (5 * (1 / 100)) }
      ∧ integrated realOps InitLevel (1 / 100) inp landingPlayer
        = { playerAt ⟨5.5, -0.0335, 20⟩ ⟨0, -5.35, 0⟩ STATE_AIR 7 150 3 with
            rot := turnInput inp * TURN_SPEED
            lean := Lerp 0 (turnInput inp * -15) (5 * (1 / 100)) }
      ∧ resolvedFloor realOps InitLevel (1 / 100) inp landingPlayer = 0
      ∧ UpdateGame realOps InitLevel (1 / 100) inp landingPlayer
        = messageTick (1 / 100) (animation (1 / 100) (trickActions inp (jumpAction inp
            (floorSnap 0
              { playerAt ⟨5.5, -0.0335, 20⟩ ⟨0, -5.35, 0⟩ STATE_AIR 7 150 3 with
                rot := turnInput inp * TURN_SPEED
                lean := Lerp 0 (turnInput inp * -15) (5 * (1 / 100)) })))) :=
  updateGame_steps realOps InitLevel (1 / 100) inp landingPlayer
    (a := { playerAt ⟨5.5, 0.02, 20⟩ ⟨0, -5.35, 0⟩ STATE_AIR 7 150 3 with
            rot := turnInput inp * TURN_SPEED
            lean := Lerp 0 (turnInput inp * -15) (5 * (1 / 100)) })
    (f := (0, false))
    (by norm_num [locomotion, resetKey, hR, landingPlayer, turning, groundAccel,
      speedCap, gravity, playerAt, real_length_gt, MAX_SPEED, GRAVITY])
    (by norm_num [grindEntry, InitLevel, grindEntryRail, playerAt])
    (by norm_num [grindLogic, integrate, playerAt, Vector3Add, Vector3Scale])
    (floorScan_beside_red_rail _)

/-- The idle frame on `terminalPlayer`, dt = 1/100, in `InitLevel`. -/
theorem terminal_frame_eval :
    UpdateGame realOps InitLevel (1 / 100) idleInput terminalPlayer
      = playerAt ⟨5.5, 49.7765, 20⟩ ⟨0, -22.35, 0⟩ STATE_AIR 0 0 1 := by
  have h := (updateGame_steps realOps InitLevel (1 / 100) idleInput terminalPlayer
    (a := playerAt ⟨5.5, 50, 20⟩ ⟨0, -22.35, 0⟩ STATE_AIR 0 0 1)
    (b := playerAt ⟨5.5, 50, 20⟩ ⟨0, -22.35, 0⟩ STATE_AIR 0 0 1)
    (c := playerAt ⟨5.5, 49.7765, 20⟩ ⟨0, -22.35, 0⟩ STATE_AIR 0 0 1)
    (f := (0, false))
    (by norm_num [locomotion, resetKey, terminalPlayer, turning, turnInput, groundAccel,
      speedCap, gravity, idleInput, playerAt, real_length_gt, MAX_SPEED,
      GRAVITY, TURN_SPEED, Lerp])
    (by norm_num [grindEntry, InitLevel, grindEntryRail, playerAt])
    (by norm_num [grindLogic, integrate, playerAt, Vector3Add, Vector3Scale])
    (floorScan_beside_red_rail _)).2.2.2
  rw [h]
  norm_num [floorSnap, jumpAction, trickActions, animation, messageTick, playerAt, idleInput]

theorem real_sqrt_25 : Real.sqrt 25 = 5 := by
  rw [show (25 : ℝ) = 5 ^ 2 by norm_num]
  exact Real.sqrt_sq (by norm_num)

/-- The first idle frame, dt = 1/10, from the reset player on bare ground with one rail. -/
theorem first_frame_eval (tip : Vector3 ℝ) (p0 : Player ℝ) :
    UpdateGame realOps (oneRailLevel tip) (1 / 10) idleInput (ResetGame p0)
      = playerAt ⟨0, 0.15, 0⟩ ⟨0, -3.5, 0⟩ STATE_AIR 0 0 1 := by
  have h := (updateGame_steps realOps (oneRailLevel tip) (1 / 10) idleInput (ResetGame p0)
    (a := playerAt ⟨0, 0.5, 0⟩ ⟨0, -3.5, 0⟩ STATE_GROUND 0 0 1)
    (b := playerAt ⟨0, 0.5, 0⟩ ⟨0, -3.5, 0⟩ STATE_GROUND 0 0 1)
    (c := playerAt ⟨0, 0.15, 0⟩ ⟨0, -3.5, 0⟩ STATE_GROUND 0 0 1)
    (f := (0, false))
    (by norm_num [locomotion, resetKey, ResetGame, turning, turnInput, groundAccel,
      moveInput, forward, speedCap, gravity, idleInput, playerAt, real_length_gt, MAX_SPEED,
      GRAVITY, TURN_SPEED, ACCEL, FRICTION, Lerp, Vector3Add, Vector3Scale])
    (by norm_num [grindEntry, playerAt])
    (by norm_num [grindLogic, integrate, playerAt, Vector3Add, Vector3Scale])
    rfl).2.2.2
  rw [h]
  norm_num [floorSnap, jumpAction, trickActions, animation, messageTick, playerAt, idleInput]

/-- The second idle frame with the rail sloping up from the origin to (4, 3, 0): the
player snaps onto the rail and leaves along it at 10 units per second. -/
theorem sloped_second_frame_eval :
    (UpdateGame realOps (oneRailLevel ⟨4, 3, 0⟩) (1 / 10) idleInput
        (playerAt ⟨0, 0.15, 0⟩ ⟨0, -3.5, 0⟩ STATE_AIR 0 0 1)).state = STATE_GRIND
      ∧ (UpdateGame realOps (oneRailLevel ⟨4, 3, 0⟩) (1 / 10) idleInput
        (playerAt ⟨0, 0.15, 0⟩ ⟨0, -3.5, 0⟩ STATE_AIR 0 0 1)).vel.y = 6 := by
  have h := (updateGame_steps realOps (oneRailLevel ⟨4, 3, 0⟩) (1 / 10) idleInput
    (playerAt ⟨0, 0.15, 0⟩ ⟨0, -3.5, 0⟩ STATE_AIR 0 0 1)
    (a := playerAt ⟨0, 0.15, 0⟩ ⟨0, -7, 0⟩ STATE_AIR 0 0 1)
    (b := { playerAt ⟨0.072, 0.2, 0⟩ ⟨8, 6, 0⟩ STATE_GRIND 0 50 2 with
            trickText := "Rail Grind!", messageTimer := 1 })
    (c := { playerAt ⟨0.872, 0.8, 0⟩ ⟨8, 6, 0⟩ STATE_GRIND 0 51 2 with
            trickText := "Rail Grind!", messageTimer := 1 })
    (f := (0, false))
    (by norm_num [locomotion, resetKey, turning, turnInput, groundAccel,
      speedCap, gravity, idleInput, playerAt, real_length_gt, MAX_SPEED,
      GRAVITY, TURN_SPEED, Lerp])
    (by norm_num [grindEntry, oneRailLevel, grindEntryRail, playerAt, real_distance_lt,
      RAIL_SNAP_DIST, ClosestPointOnSegment, Clamp, Vector3Subtract, Vector3DotProduct,
      Vector3Add, Vector3Scale, Vector3Normalize, Vector3Length, real_sqrt_25])
    (by norm_num [grindLogic, onAnyRail, oneRailLevel, integrate, playerAt, real_distance_lt,
      ClosestPointOnSegment, Clamp, Vector3Subtract, Vector3DotProduct,
      Vector3Add, Vector3Scale, idleInput])
    rfl).2.2.2
  rw [h]
  norm_num [floorSnap, jumpAction, trickActions, animation, messageTick, playerAt, idleInput]

/-- The second idle frame with the horizontal rail from the origin to (5, 0, 0). -/
theorem flat_second_frame_eval :
    (UpdateGame realOps (oneRailLevel ⟨5, 0, 0⟩) (1 / 10) idleInput
        (playerAt ⟨0, 0.15, 0⟩ ⟨0, -3.5, 0⟩ STATE_AIR 0 0 1)).state = STATE_GRIND := by
  have h := (updateGame_steps realOps (oneRailLevel ⟨5, 0, 0⟩) (1 / 10) idleInput
    (playerAt ⟨0, 0.15, 0⟩ ⟨0, -3.5, 0⟩ STATE_AIR 0 0 1)
    (a := playerAt ⟨0, 0.15, 0⟩ ⟨0, -7, 0⟩ STATE_AIR 0 0 1)
    (b := { playerAt ⟨0, 0.2, 0⟩ ⟨10, 0, 0⟩ STATE_GRIND 0 50 2 with
            trickText := "Rail Grind!", messageTimer := 1 })
    (c := { playerAt ⟨1, 0.2, 0⟩ ⟨10, 0, 0⟩ STATE_GRIND 0 51 2 with
            trickText := "Rail Grind!", messageTimer := 1 })
    (f := (0, false))
    (by norm_num [locomotion, resetKey, turning, turnInput, groundAccel,
      speedCap, gravity, idleInput, playerAt, real_length_gt, MAX_SPEED,
      GRAVITY, TURN_SPEED, Lerp])
    (by norm_num [grindEntry, oneRailLevel, grindEntryRail, playerAt, real_distance_lt,
      RAIL_SNAP_DIST, ClosestPointOnSegment, Clamp, Vector3Subtract, Vector3DotProduct,
      Vector3Add, Vector3Scale, Vector3Normalize, Vector3Length, real_sqrt_25])
    (by norm_num [grindLogic, onAnyRail, oneRailLevel, integrate, playerAt, real_distance_lt,
      ClosestPointOnSegment, Clamp, Vector3Subtract, Vector3DotProduct,
      Vector3Add, Vector3Scale, idleInput])
    rfl).2.2.2
  rw [h]
  norm_num [floorSnap, jumpAction, trickActions, animation, messageTick, playerAt, idleInput]

theorem runFrames_two (ops : MathOps ℝ) (lvl : Level ℝ) (f₁ f₂ : ℝ × Input ℝ) (p : Player ℝ) :
    runFrames ops lvl [f₁, f₂] p
      = UpdateGame ops lvl f₂.1 f₂.2 (UpdateGame ops lvl f₁.1 f₁.2 p) := rfl

theorem real_distance_eq (a b : Vector3 ℝ) :
    Vector3Distance realOps a b = Real.sqrt (distSq a b) := rfl

/-- The kicker ramp of `InitLevel` is 0.96 high under the points with x = 0 and z = 23.2. -/
theorem floorScan_on_kicker (y : ℝ) :
    floorScan realOps (InitLevel : Level ℝ).ramps ⟨0, y, 23.2⟩ = (0.96, true) := by
  norm_num [floorScan, InitLevel, floorRamp, Vector3Subtract, abs_lt]

/-- The idle frame on `climbingPlayer`, dt = 1/100, in `InitLevel`, up to the floor height. -/
theorem climbing_frame_steps :
    integrated realOps InitLevel (1 / 100) idleInput climbingPlayer
        = playerAt ⟨0, 0.9165, 23.2⟩ ⟨0, 1.65, 20⟩ STATE_AIR 7 150 3
      ∧ resolvedFloor realOps InitLevel (1 / 100) idleInput climbingPlayer = 0.96 :=
  let h := updateGame_steps realOps InitLevel (1 / 100) idleInput climbingPlayer
    (a := playerAt ⟨0, 0.9, 23⟩ ⟨0, 1.65, 20⟩ STATE_AIR 7 150 3)
    (b := playerAt ⟨0, 0.9, 23⟩ ⟨0, 1.65, 20⟩ STATE_AIR 7 150 3)
    (c := playerAt ⟨0, 0.9165, 23.2⟩ ⟨0, 1.65, 20⟩ STATE_AIR 7 150 3)
    (f := (0.96, true))
    (by norm_num [locomotion, resetKey, climbingPlayer, turning, turnInput, groundAccel,
      speedCap, gravity, idleInput, playerAt, real_length_gt, MAX_SPEED,
      GRAVITY, TURN_SPEED, Lerp])
    (by norm_num [grindEntry, playerAt])
    (by norm_num [grindLogic, integrate, playerAt, Vector3Add, Vector3Scale])
    (floorScan_on_kicker _)
  ⟨h.2.1, h.2.2.1⟩

/-- The collision code on `climbingPlayer`: landed, combo banked, still moving upwards. -/
theorem climbing_collided :
    (collided realOps InitLevel (1 / 100) idleInput climbingPlayer).state = STATE_GROUND
      ∧ (collided realOps InitLevel (1 / 100) idleInput climbingPlayer).score = 457
      ∧ (collided realOps InitLevel (1 / 100) idleInput climbingPlayer).vel.y = 1.65 := by
  obtain ⟨hi, hf⟩ := climbing_frame_steps
  unfold collided
  rw [hi, hf]
  norm_num [floorSnap, playerAt]

/-- The collision code on `landingPlayer` with jump pressed: phase Ground, combo banked. -/
theorem landing_collided :
    (collided realOps InitLevel (1 / 100) jumpInput landingPlayer).state = STATE_GROUND
      ∧ (collided realOps InitLevel (1 / 100) jumpInput landingPlayer).comboScore = 0
      ∧ (collided realOps InitLevel (1 / 100) jumpInput landingPlayer).comboMult = 1 := by
  obtain ⟨-, hi, hf, -⟩ := landing_frame_steps jumpInput rfl
  unfold collided
  rw [hi, hf]
  norm_num [floorSnap, playerAt]

/-- The kicker ramp of `InitLevel` holds the point (0, y, 23.2). -/
theorem kicker_holds_point (y : ℝ) :
    InFootprint realOps ⟨0, y, 23.2⟩ (⟨⟨0, 0, 25⟩, ⟨8, 3, 10⟩, 0, BLUE⟩ : Ramp ℝ) := by
  norm_num [InFootprint, rampLocalX, rampLocalZ, Vector3Subtract, abs_lt]

theorem real_sqrt_100 : Real.sqrt 100 = 10 := by
  rw [show (100 : ℝ) = 10 ^ 2 by norm_num]
  exact Real.sqrt_sq (by norm_num)

theorem real_sqrt_900 : Real.sqrt 900 = 30 := by
  rw [show (900 : ℝ) = 30 ^ 2 by norm_num]
  exact Real.sqrt_sq (by norm_num)

/-- The idle frame on `railHitPlayer`, dt = 1/100, in `InitLevel`, up to the grind-entry
check: the player is snapped onto the red rail. -/
theorem railHit_steps :
    locomotion realOps (1 / 100) idleInput railHitPlayer
        = playerAt ⟨5, 1.2, 20⟩ ⟨0, -5.35, 0⟩ STATE_AIR 7 150 3
      ∧ beforeGrindLogic realOps InitLevel (1 / 100) idleInput railHitPlayer
        = { playerAt ⟨5, 1.7, 20⟩ ⟨0, 0, 10⟩ STATE_GRIND 7 200 4 with
            trickText := "Rail Grind!", messageTimer := 1 } := by
  have h₁ : locomotion realOps (1 / 100) idleInput railHitPlayer
      = playerAt ⟨5, 1.2, 20⟩ ⟨0, -5.35, 0⟩ STATE_AIR 7 150 3 := by
    norm_num [locomotion, resetKey, railHitPlayer, turning, turnInput, groundAccel,
      speedCap, gravity, idleInput, playerAt, real_length_gt, MAX_SPEED,
      GRAVITY, TURN_SPEED, Lerp]
  refine ⟨h₁, ?_⟩
  unfold beforeGrindLogic
  rw [h₁]
  norm_num [grindEntry, InitLevel, grindEntryRail, playerAt, real_distance_lt,
    RAIL_SNAP_DIST, ClosestPointOnSegment, Clamp, Vector3Subtract, Vector3DotProduct,
    Vector3Add, Vector3Scale, Vector3Normalize, Vector3Length, real_sqrt_900]

/-- The idle frame on `twinRailPlayer`, dt = 1/100, in `twinRailLevel`, up to the
grind-entry check: the player is snapped onto the first rail and then onto the second. -/
theorem twinRail_steps :
    locomotion realOps (1 / 100) idleInput twinRailPlayer
        = playerAt ⟨2, 1.3, 0.2⟩ ⟨0, -5.35, 0⟩ STATE_AIR 7 150 3
      ∧ beforeGrindLogic realOps twinRailLevel (1 / 100) idleInput twinRailPlayer
        = { playerAt ⟨2, 1.2, 0.5⟩ ⟨10, 0, 0⟩ STATE_GRIND 7 250 5 with
            trickText := "Rail Grind!", messageTimer := 1 } := by
  have h₁ : locomotion realOps (1 / 100) idleInput twinRailPlayer
      = playerAt ⟨2, 1.3, 0.2⟩ ⟨0, -5.35, 0⟩ STATE_AIR 7 150 3 := by
    norm_num [locomotion, resetKey, twinRailPlayer, turning, turnInput, groundAccel,
      speedCap, gravity, idleInput, playerAt, real_length_gt, MAX_SPEED,
      GRAVITY, TURN_SPEED, Lerp]
  refine ⟨h₁, ?_⟩
  unfold beforeGrindLogic
  rw [h₁]
  norm_num [grindEntry, twinRailLevel, grindEntryRail, playerAt, real_distance_lt,
    RAIL_SNAP_DIST, ClosestPointOnSegment, Clamp, Vector3Subtract, Vector3DotProduct,
    Vector3Add, Vector3Scale, Vector3Normalize, Vector3Length, real_sqrt_25, real_sqrt_100]

/-- Both rails of `twinRailLevel` satisfy the snap condition for `twinRailPlayer` as the
grind-entry check finds it. -/
theorem twinRail_both_qualify :
    ∀ rail ∈ (twinRailLevel : Level ℝ).rails,
      SnapCondition realOps (playerAt ⟨2, 1.3, 0.2⟩ ⟨0, -5.35, 0⟩ STATE_AIR 7 150 3) rail := by
  intro rail hr
  simp only [twinRailLevel, List.mem_cons, List.mem_singleton, List.not_mem_nil, or_false] at hr
  rcases hr with rfl | rfl <;>
    norm_num [SnapCondition, real_distance_lt, RAIL_SNAP_DIST, ClosestPointOnSegment, Clamp,
      Vector3Subtract, Vector3DotProduct, Vector3Add, Vector3Scale, playerAt]

end RealEval

/-! ## Claims -/

section Claims

variable {F : Type} [LinearOrderedField F]

/-- C1, the claim as stated fails: an airborne player with pending combo 150 and multiplier
3 comes down on the ground of `InitLevel` (integrated height -0.0335, floor height 0) in a
frame in which jump is pressed; the combo is banked (score 7 + 450) and the player takes off
again, so the frame ends in phase Air with pending combo 10, not in phase Ground with pending
combo 0. -/
theorem C1_landing_with_jump_ends_airborne :
    (landingPlayer : Player ℝ).state = STATE_AIR
      ∧ (integrated realOps InitLevel (1 / 100) jumpInput landingPlayer).pos.y
          ≤ resolvedFloor realOps InitLevel (1 / 100) jumpInput landingPlayer
      ∧ (UpdateGame realOps InitLevel (1 / 100) jumpInput landingPlayer).state = STATE_AIR
      ∧ (UpdateGame realOps InitLevel (1 / 100) jumpInput landingPlayer).comboScore = 10
      ∧ (UpdateGame realOps InitLevel (1 / 100) jumpInput landingPlayer).score = 457 := by
  obtain ⟨-, hi, hf, hu⟩ := landing_frame_steps jumpInput rfl
  rw [hi, hf, hu]
  norm_num [floorSnap, jumpAction, trickActions, animation, messageTick, playerAt, jumpInput,
    idleInput, landingPlayer]

/-- C1 (landing banks exactly once, amended): in a frame in which neither reset nor jump is
pressed, a player in phase Air with pending combo `P ≥ 0` and multiplier `M` (`M = 1` when
`P = 0`) that the grind-entry check of this frame leaves in phase Air, and whose integrated
height is at or below the resolved floor, ends the frame in phase Ground with the score
increased by exactly `P * M`, pending combo 0 and multiplier 1. -/
theorem C1_landing_banks_once (ops : MathOps F) (lvl : Level F) (dt : F) (inp : Input F)
    (p : Player F) (hAir : p.state = STATE_AIR)
    (hR : inp.pressedR = false) (hJ : inp.pressedSPACE = false)
    (hP : 0 ≤ p.comboScore) (hPM : p.comboScore = 0 → p.comboMult = 1)
    (hNoSnap : (beforeGrindLogic ops lvl dt inp p).state = STATE_AIR)
    (hLow : (integrated ops lvl dt inp p).pos.y ≤ resolvedFloor ops lvl dt inp p) :
    (UpdateGame ops lvl dt inp p).state = STATE_GROUND
      ∧ (UpdateGame ops lvl dt inp p).score = p.score + p.comboScore * p.comboMult
      ∧ (UpdateGame ops lvl dt inp p).comboScore = 0
      ∧ (UpdateGame ops lvl dt inp p).comboMult = 1 := by
  -- the player as the collision code finds it: scores untouched, phase Air
  have hloc := locomotion_scoring ops dt hR p
  have hb : beforeGrindLogic ops lvl dt inp p = locomotion ops dt inp p :=
    grindEntry_air ops lvl.rails hNoSnap
  have hst : (locomotion ops dt inp p).state = STATE_AIR := hloc.1.trans hAir
  have hq : SameScoring p (integrated ops lvl dt inp p) := by
    unfold integrated
    rw [hb, grindLogic_of_not_grind ops lvl.rails inp (by rw [hst]; simp)]
    exact hloc.trans (integrate_scoring dt _)
  obtain ⟨q₁, q₂, q₃, q₄⟩ := hq
  have hL : Landing (resolvedFloor ops lvl dt inp p) (integrated ops lvl dt inp p) :=
    ⟨hLow, Or.inl (q₁.trans hAir)⟩
  have hland := floorSnap_landing hL (by rw [q₃]; exact hP) (by rw [q₃, q₄]; exact hPM)
  have hscore := floorSnap_score_landing hL (by rw [q₃]; exact hP)
  rw [q₂, q₃, q₄] at hscore
  -- nothing after the landing changes phase or scores
  have hc : collided ops lvl dt inp p
      = floorSnap (resolvedFloor ops lvl dt inp p) (integrated ops lvl dt inp p) := rfl
  have hrest : SameScoring (collided ops lvl dt inp p) (UpdateGame ops lvl dt inp p) := by
    rw [updateGame_eq_beforeBounds]
    unfold beforeBounds
    rw [jumpAction_idle hJ, trickActions_of_not_air inp (by rw [hc, hland.1]; simp)]
    exact (animation_scoring dt _).trans (messageTick_scoring dt _)
  obtain ⟨r₁, r₂, r₃, r₄⟩ := hrest
  rw [r₁, r₂, r₃, r₄, hc]
  exact ⟨hland.1, hscore, hland.2.1, hland.2.2⟩

/-- C1 at the scenario of the specification: pending combo 150, multiplier 3, coming down
on the ground of `InitLevel` in an idle frame: the score grows by 450. -/
theorem C1_landing_banks_once_witness :
    (UpdateGame realOps InitLevel (1 / 100) idleInput landingPlayer).state = STATE_GROUND
      ∧ (UpdateGame realOps InitLevel (1 / 100) idleInput landingPlayer).score = 7 + 150 * 3
      ∧ (UpdateGame realOps InitLevel (1 / 100) idleInput landingPlayer).comboScore = 0
      ∧ (UpdateGame realOps InitLevel (1 / 100) idleInput landingPlayer).comboMult = 1 := by
  obtain ⟨hb, hi, hf, -⟩ := landing_frame_steps idleInput rfl
  exact C1_landing_banks_once realOps InitLevel (1 / 100) idleInput landingPlayer
    rfl rfl rfl (by decide) (by decide) (by rw [hb]; rfl)
    (by rw [hi, hf]; norm_num [playerAt])

/-- C2, the claim as stated fails: on bare ground with one rail sloping up from (0, 0, 0) to
(4, 3, 0), two idle frames of dt = 1/10 from the `ResetGame` player end in phase Grind with
vertical velocity 6. -/
theorem C2_sloped_rail_grind_has_vertical_velocity :
    (∀ rail ∈ (oneRailLevel ⟨4, 3, 0⟩ : Level ℝ).rails, rail.start.x ≠ rail.end.x)
      ∧ (runFrames realOps (oneRailLevel ⟨4, 3, 0⟩) [(1 / 10, idleInput), (1 / 10, idleInput)]
          (ResetGame fallingPlayer)).state = STATE_GRIND
      ∧ (runFrames realOps (oneRailLevel ⟨4, 3, 0⟩) [(1 / 10, idleInput), (1 / 10, idleInput)]
          (ResetGame fallingPlayer)).vel.y = 6 := by
  rw [runFrames_two]
  dsimp only
  rw [first_frame_eval]
  exact ⟨by simp [oneRailLevel], sloped_second_frame_eval⟩

/-- C2 (grind locks gravity, amended): for every level whose rails are horizontal
(`start.y = end.y` for every rail) and every sequence of frames from the `ResetGame` player,
whenever the phase at the end of a frame is Grind the vertical velocity at the end of that
frame is exactly 0. -/
theorem C2_grind_locks_gravity (ops : MathOps F) (lvl : Level F)
    (hFlat : ∀ rail ∈ lvl.rails, rail.start.y = rail.end.y)
    (frames : List (F × Input F)) (p0 : Player F) :
    (runFrames ops lvl frames (ResetGame p0)).state = STATE_GRIND →
      (runFrames ops lvl frames (ResetGame p0)).vel.y = 0 :=
  grindFlat_runFrames ops lvl hFlat frames (p := ResetGame p0)
    (fun h => by simp [ResetGame] at h)

/-- C2 at a concrete run: bare ground with the horizontal rail from (0, 0, 0) to (5, 0, 0);
two idle frames of dt = 1/10 from the `ResetGame` player end in phase Grind, with vertical
velocity 0. -/
theorem C2_grind_locks_gravity_witness :
    (∀ rail ∈ (oneRailLevel ⟨5, 0, 0⟩ : Level ℝ).rails, rail.start.y = rail.end.y)
      ∧ (runFrames realOps (oneRailLevel ⟨5, 0, 0⟩) [(1 / 10, idleInput), (1 / 10, idleInput)]
          (ResetGame fallingPlayer)).state = STATE_GRIND
      ∧ (runFrames realOps (oneRailLevel ⟨5, 0, 0⟩) [(1 / 10, idleInput), (1 / 10, idleInput)]
          (ResetGame fallingPlayer)).vel.y = 0 := by
  have hFlat : ∀ rail ∈ (oneRailLevel ⟨5, 0, 0⟩ : Level ℝ).rails, rail.start.y = rail.end.y := by
    simp [oneRailLevel]
  have hState : (runFrames realOps (oneRailLevel ⟨5, 0, 0⟩)
      [(1 / 10, idleInput), (1 / 10, idleInput)] (ResetGame fallingPlayer)).state
      = STATE_GRIND := by
    rw [runFrames_two]
    dsimp only
    rw [first_frame_eval]
    exact flat_second_frame_eval
  exact ⟨hFlat, hState,
    C2_grind_locks_gravity realOps (oneRailLevel ⟨5, 0, 0⟩) hFlat
      [(1 / 10, idleInput), (1 / 10, idleInput)] fallingPlayer hState⟩

/-- C3, the claim as stated fails: an airborne player falling at exactly 22 units per second
is not capped and gravity then takes its vertical velocity to -22.35 in a frame of
dt = 1/100, so the velocity after the frame is longer than `MAX_SPEED`. -/
theorem C3_gravity_exceeds_speed_cap :
    (0 : ℝ) < 1 / 100
      ∧ ¬ ((UpdateGame realOps InitLevel (1 / 100) idleInput terminalPlayer).vel.x ^ 2
          + (UpdateGame realOps InitLevel (1 / 100) idleInput terminalPlayer).vel.y ^ 2
          + (UpdateGame realOps InitLevel (1 / 100) idleInput terminalPlayer).vel.z ^ 2
          ≤ 22 ^ 2) := by
  rw [terminal_frame_eval]
  norm_num [playerAt]

/-- C3 (speed cap, amended): with an exact square root, for every player, input and dt the
velocity the player holds right after the speed-cap block of a frame (lines 194-196, before
gravity, grind entry and jump are applied) satisfies vx^2 + vy^2 + vz^2 <= 22^2. -/
theorem C3_speed_cap_at_cap_block (ops : MathOps F)
    (hSqrt : (∀ x : F, 0 ≤ x → ops.sqrtf x * ops.sqrtf x = x) ∧ (∀ x : F, 0 ≤ ops.sqrtf x))
    (dt : F) (inp : Input F) (p : Player F) :
    (speedCap ops (groundAccel ops dt inp (turning dt inp (resetKey inp p)))).vel.x ^ 2
      + (speedCap ops (groundAccel ops dt inp (turning dt inp (resetKey inp p)))).vel.y ^ 2
      + (speedCap ops (groundAccel ops dt inp (turning dt inp (resetKey inp p)))).vel.z ^ 2
      ≤ MAX_SPEED ^ 2 :=
  speedCap_normSq_le ops hSqrt _

/-- C3 at a concrete frame: a player moving at speed 50, over the reals. -/
theorem C3_speed_cap_at_cap_block_witness :
    (speedCap realOps (groundAccel realOps (1 / 100) idleInput
        (turning (1 / 100) idleInput (resetKey idleInput speedingPlayer)))).vel.x ^ 2
      + (speedCap realOps (groundAccel realOps (1 / 100) idleInput
        (turning (1 / 100) idleInput (resetKey idleInput speedingPlayer)))).vel.y ^ 2
      + (speedCap realOps (groundAccel realOps (1 / 100) idleInput
        (turning (1 / 100) idleInput (resetKey idleInput speedingPlayer)))).vel.z ^ 2
      ≤ (MAX_SPEED : ℝ) ^ 2 :=
  C3_speed_cap_at_cap_block realOps
    ⟨fun _ hx => Real.mul_self_sqrt hx, fun x => Real.sqrt_nonneg x⟩
    (1 / 100) idleInput speedingPlayer

/-- C4 (permanent score): in a frame without reset request, from a player with pending
combo at least 0 and multiplier at least 1, the score does not decrease, it changes only if
the frame takes the landing branch (phase Air or Grind at or below the resolved floor after
integration), and on that branch it grows by pending combo times multiplier as the landing
finds them. -/
theorem C4_score_monotone_only_landing (ops : MathOps F) (lvl : Level F) (dt : F)
    (inp : Input F) (p : Player F) (hR : inp.pressedR = false)
    (hP : 0 ≤ p.comboScore) (hM : 1 ≤ p.comboMult) :
    p.score ≤ (UpdateGame ops lvl dt inp p).score
      ∧ ((UpdateGame ops lvl dt inp p).score ≠ p.score →
          Landing (resolvedFloor ops lvl dt inp p) (integrated ops lvl dt inp p))
      ∧ (Landing (resolvedFloor ops lvl dt inp p) (integrated ops lvl dt inp p) →
          (UpdateGame ops lvl dt inp p).score
            = p.score + (integrated ops lvl dt inp p).comboScore
                * (integrated ops lvl dt inp p).comboMult) := by
  obtain ⟨hq, hq'⟩ := comboNonneg_integrated ops lvl dt hR (p := p) ⟨hP, hM⟩
  have hs := integrated_score ops lvl dt hR p
  have hmul : 0 ≤ (integrated ops lvl dt inp p).comboScore
      * (integrated ops lvl dt inp p).comboMult := mul_nonneg hq (by omega)
  rw [updateGame_score]
  unfold collided
  by_cases hL : Landing (resolvedFloor ops lvl dt inp p) (integrated ops lvl dt inp p)
  · rw [floorSnap_score_landing hL hq, hs]
    exact ⟨by omega, fun _ => hL, fun _ => rfl⟩
  · rw [floorSnap_score_other hL, hs]
    exact ⟨le_refl _, fun h => absurd rfl h, fun h => absurd h hL⟩

/-- C4 at a concrete frame: the airborne player with pending combo 150 and multiplier 3 that
comes down on the ground of `InitLevel`; the landing branch is taken and the score grows
from 7 to 457. -/
theorem C4_score_monotone_only_landing_witness :
    (7 : Int) ≤ (UpdateGame realOps InitLevel (1 / 100) idleInput landingPlayer).score
      ∧ Landing (resolvedFloor realOps InitLevel (1 / 100) idleInput landingPlayer)
          (integrated realOps InitLevel (1 / 100) idleInput landingPlayer)
      ∧ (UpdateGame realOps InitLevel (1 / 100) idleInput landingPlayer).score = 7 + 150 * 3 := by
  obtain ⟨-, hi, hf, -⟩ := landing_frame_steps idleInput rfl
  have hL : Landing (resolvedFloor realOps InitLevel (1 / 100) idleInput landingPlayer)
      (integrated realOps InitLevel (1 / 100) idleInput landingPlayer) := by
    rw [hi, hf]
    exact ⟨by norm_num [playerAt], Or.inl rfl⟩
  obtain ⟨h₁, -, h₃⟩ := C4_score_monotone_only_landing realOps InitLevel (1 / 100) idleInput
    landingPlayer rfl (by decide) (by decide)
  have h₄ := h₃ hL
  rw [hi] at h₄
  exact ⟨h₁, hL, h₄⟩

/-- C5 (combo invariant): in every state reached from the `ResetGame` state by any sequence
of frames (any level, any `dt`, any inputs, any clock values, any runtime functions), the
pending combo is non-negative, the multiplier is at least 1, and a pending combo of 0 comes
with a multiplier of 1. -/
theorem C5_combo_invariant (ops : MathOps F) (lvl : Level F) (frames : List (F × Input F))
    (p0 : Player F) :
    0 ≤ (runFrames ops lvl frames (ResetGame p0)).comboScore
      ∧ 1 ≤ (runFrames ops lvl frames (ResetGame p0)).comboMult
      ∧ ((runFrames ops lvl frames (ResetGame p0)).comboScore = 0
          → (runFrames ops lvl frames (ResetGame p0)).comboMult = 1) :=
  comboInv_runFrames ops lvl frames (comboInv_resetGame p0)

/-- C6, the claim as stated fails: the position `ResetGame` produces is not the origin
(its height is 0.5). -/
theorem C6_reset_position_is_not_origin :
    ¬ ((ResetGame (playerAt ⟨3, 4, 5⟩ ⟨1, 1, 1⟩ STATE_AIR 7 150 3 : Player ℚ)).pos.x = 0
        ∧ (ResetGame (playerAt ⟨3, 4, 5⟩ ⟨1, 1, 1⟩ STATE_AIR 7 150 3 : Player ℚ)).pos.y = 0
        ∧ (ResetGame (playerAt ⟨3, 4, 5⟩ ⟨1, 1, 1⟩ STATE_AIR 7 150 3 : Player ℚ)).pos.z = 0) := by
  norm_num [ResetGame]

/-- C6 (reset idempotence, amended): for every prior player, `ResetGame` yields one and the
same canonical player: phase Ground, velocity (0,0,0), position (0, 0.5, 0), facing 0,
score 0, pending combo 0, multiplier 1 (board rotations, lean and message timer 0, empty
trick text); hence `ResetGame` applied twice equals `ResetGame` applied once. -/
theorem C6_reset_canonical (p : Player F) :
    ResetGame p =
        { pos := ⟨0, 0.5, 0⟩, vel := ⟨0, 0, 0⟩, rot := 0, state := STATE_GROUND
          boardRotX := 0, boardRotZ := 0, lean := 0
          score := 0, comboScore := 0, comboMult := 1
          trickText := "", messageTimer := 0 }
      ∧ ResetGame (ResetGame p) = ResetGame p :=
  ⟨rfl, rfl⟩

/-- C7, the claim as stated fails: with reset pressed and dt = 1/100 the frame returns a
player in phase Air with vertical velocity -0.35 at height 0.4965, which is not the player
`ResetGame` produces. -/
theorem C7_reset_frame_is_not_reset_state :
    (0 : ℝ) < 1 / 100 ∧ (resetInput : Input ℝ).pressedR = true
      ∧ (UpdateGame realOps InitLevel (1 / 100) resetInput fallingPlayer).state = STATE_AIR
      ∧ (UpdateGame realOps InitLevel (1 / 100) resetInput fallingPlayer).vel.y = -0.35
      ∧ (ResetGame (fallingPlayer : Player ℝ)).state = STATE_GROUND
      ∧ UpdateGame realOps InitLevel (1 / 100) resetInput fallingPlayer
          ≠ ResetGame fallingPlayer := by
  rw [reset_frame_eval]
  refine ⟨by norm_num, rfl, rfl, rfl, rfl, fun h => ?_⟩
  have := congrArg (fun q : Player ℝ => q.state) h
  simp [playerAt, ResetGame] at this

/-- C7 (reset key, amended): a frame in which reset is requested is the frame without the
reset request run on the `ResetGame` player; turning, acceleration, gravity, integration,
collision and actions are all still applied in that frame. -/
theorem C7_reset_then_tick (ops : MathOps F) (lvl : Level F) (dt : F) (inp : Input F)
    (p : Player F) (hR : inp.pressedR = true) :
    UpdateGame ops lvl dt inp p
      = UpdateGame ops lvl dt { inp with pressedR := false } (ResetGame p) :=
  updateGame_of_reset ops lvl dt p hR

/-- C7 at a concrete frame: reset pressed on the falling player in `InitLevel`. -/
theorem C7_reset_then_tick_witness :
    UpdateGame realOps InitLevel (1 / 100) resetInput fallingPlayer
      = UpdateGame realOps InitLevel (1 / 100) { (resetInput : Input ℝ) with pressedR := false }
          (ResetGame fallingPlayer) :=
  C7_reset_then_tick realOps InitLevel (1 / 100) resetInput fallingPlayer rfl

/-- C8, the claim as stated fails: a player at height -11 in `InitLevel` is put on the
ground by the next frame (height 0, its combo banked into the score), not reset. -/
theorem C8_sunk_player_is_not_reset :
    (sunkPlayer : Player ℝ).pos.y < -10 ∧ (0 : ℝ) < 1 / 100
      ∧ (UpdateGame realOps InitLevel (1 / 100) idleInput sunkPlayer).pos.y = 0
      ∧ (UpdateGame realOps InitLevel (1 / 100) idleInput sunkPlayer).score = 457
      ∧ (ResetGame (sunkPlayer : Player ℝ)).score = 0
      ∧ UpdateGame realOps InitLevel (1 / 100) idleInput sunkPlayer ≠ ResetGame sunkPlayer := by
  obtain ⟨h₁, -, h₃⟩ := sunk_frame_eval
  refine ⟨by norm_num [sunkPlayer, playerAt], by norm_num, h₁, h₃, rfl, fun h => ?_⟩
  rw [h] at h₃
  simp [ResetGame] at h₃

/-- C8 (out of bounds, amended): from a player below the safety floor -10 (as from any
player) the frame never takes the reset of the bounds check: the frame returns what it
computed before the bounds check, at a height that is at least the resolved floor height,
itself at least 0, and exactly the resolved floor height when the integrated height is at
or below it. -/
theorem C8_below_floor_is_snapped (ops : MathOps F) (lvl : Level F) (dt : F) (inp : Input F)
    (p : Player F) (_hBelow : p.pos.y < -10) :
    UpdateGame ops lvl dt inp p = beforeBounds ops lvl dt inp p
      ∧ 0 ≤ resolvedFloor ops lvl dt inp p
      ∧ resolvedFloor ops lvl dt inp p ≤ (UpdateGame ops lvl dt inp p).pos.y
      ∧ ((integrated ops lvl dt inp p).pos.y ≤ resolvedFloor ops lvl dt inp p →
          (UpdateGame ops lvl dt inp p).pos.y = resolvedFloor ops lvl dt inp p) := by
  refine ⟨updateGame_eq_beforeBounds ops lvl dt inp p, resolvedFloor_nonneg ops lvl dt inp p,
    ?_, fun h => ?_⟩
  · rw [updateGame_eq_beforeBounds]
    exact beforeBounds_pos_y_ge ops lvl dt inp p
  · rw [updateGame_eq_beforeBounds, beforeBounds_pos]
    exact floorSnap_pos_y_of_le h

/-- C8 at a concrete frame: the player at height -11 in `InitLevel`. -/
theorem C8_below_floor_is_snapped_witness :
    UpdateGame realOps InitLevel (1 / 100) idleInput sunkPlayer
        = beforeBounds realOps InitLevel (1 / 100) idleInput sunkPlayer
      ∧ 0 ≤ resolvedFloor realOps InitLevel (1 / 100) idleInput sunkPlayer
      ∧ resolvedFloor realOps InitLevel (1 / 100) idleInput sunkPlayer
          ≤ (UpdateGame realOps InitLevel (1 / 100) idleInput sunkPlayer).pos.y
      ∧ ((integrated realOps InitLevel (1 / 100) idleInput sunkPlayer).pos.y
            ≤ resolvedFloor realOps InitLevel (1 / 100) idleInput sunkPlayer →
          (UpdateGame realOps InitLevel (1 / 100) idleInput sunkPlayer).pos.y
            = resolvedFloor realOps InitLevel (1 / 100) idleInput sunkPlayer) :=
  C8_below_floor_is_snapped realOps InitLevel (1 / 100) idleInput sunkPlayer
    (by norm_num [sunkPlayer, playerAt])

/-- C9, the code at the scenario of the claim: an airborne player falling at 5 units per
second, at horizontal distance 0.5 from the red rail of `InitLevel` (closest segment point
(5, 0, 20)) and at the rail height 1.5 plus 0.3, no key pressed, dt = 1/100.  The frame
leaves it in phase Air with vertical velocity -5.35, pending combo and multiplier unchanged
at 150 and 3: no grind is entered. -/
theorem C9_scenario_does_not_enter_grind :
    (fallingPlayer : Player ℝ).state = STATE_AIR
      ∧ (fallingPlayer : Player ℝ).vel.y = -5
      ∧ (fallingPlayer : Player ℝ).pos.y = 1.5 + 0.3
      ∧ ClosestPointOnSegment (fallingPlayer : Player ℝ).pos ⟨5, 0, 10⟩ ⟨5, 0, 40⟩ = ⟨5, 0, 20⟩
      ∧ (fallingPlayer : Player ℝ).pos.x - 5 = 0.5
      ∧ UpdateGame realOps InitLevel (1 / 100) idleInput fallingPlayer
          = playerAt ⟨5.5, 1.7465, 20⟩ ⟨0, -5.35, 0⟩ STATE_AIR 7 150 3 := by
  refine ⟨rfl, rfl, ?_, ?_, ?_, falling_frame_eval⟩
  · norm_num [fallingPlayer, playerAt]
  · norm_num [ClosestPointOnSegment, Clamp, Vector3Subtract, Vector3DotProduct, Vector3Add,
      Vector3Scale, fallingPlayer, playerAt]
  · norm_num [fallingPlayer, playerAt]

/-- C10 (grind exit): when the grind continuation check of a frame finds the player in
phase Grind with pending combo `P` and multiplier `M` and no rail of the level has its
closest segment point within 0.5 of the player, the check sets the phase to Air and the
vertical velocity to -2 and leaves `P` and `M` unchanged; if moreover the integrated height
is above the resolved floor and no trick key is pressed, the frame ends in phase Air with
vertical velocity -2, pending combo `P` and multiplier `M`. -/
theorem C10_grind_exit (ops : MathOps F) (lvl : Level F) (dt : F) (inp : Input F)
    (p : Player F)
    (hG : (beforeGrindLogic ops lvl dt inp p).state = STATE_GRIND)
    (hFar : ∀ rail ∈ lvl.rails, ¬ NearRail ops (beforeGrindLogic ops lvl dt inp p).pos rail) :
    ((grindLogic ops lvl.rails inp (beforeGrindLogic ops lvl dt inp p)).state = STATE_AIR
        ∧ (grindLogic ops lvl.rails inp (beforeGrindLogic ops lvl dt inp p)).vel.y = -2
        ∧ (grindLogic ops lvl.rails inp (beforeGrindLogic ops lvl dt inp p)).comboScore
            = (beforeGrindLogic ops lvl dt inp p).comboScore
        ∧ (grindLogic ops lvl.rails inp (beforeGrindLogic ops lvl dt inp p)).comboMult
            = (beforeGrindLogic ops lvl dt inp p).comboMult)
      ∧ (resolvedFloor ops lvl dt inp p < (integrated ops lvl dt inp p).pos.y →
          inp.pressedJ = false → inp.pressedK = false → inp.pressedL = false →
          (UpdateGame ops lvl dt inp p).state = STATE_AIR
            ∧ (UpdateGame ops lvl dt inp p).vel.y = -2
            ∧ (UpdateGame ops lvl dt inp p).comboScore
                = (beforeGrindLogic ops lvl dt inp p).comboScore
            ∧ (UpdateGame ops lvl dt inp p).comboMult
                = (beforeGrindLogic ops lvl dt inp p).comboMult) := by
  have hx := grindLogic_exit ops lvl.rails inp hG hFar
  refine ⟨by rw [hx]; exact ⟨rfl, rfl, rfl, rfl⟩, fun hAbove hJ hK hL => ?_⟩
  -- the player as the collision code finds it
  have hq : integrated ops lvl dt inp p
      = integrate dt { beforeGrindLogic ops lvl dt inp p with
          state := STATE_AIR, vel := { (beforeGrindLogic ops lvl dt inp p).vel with y := -2 } } := by
    unfold integrated; rw [hx]
  obtain ⟨f₁, -, f₃, f₄, f₅⟩ := floorSnap_above hAbove
  have hcs : (collided ops lvl dt inp p).state = STATE_AIR := by
    unfold collided
    rcases f₅ with h | h
    · rw [h, hq]; rfl
    · exact h
  rw [updateGame_eq_beforeBounds]
  unfold beforeBounds
  rw [jumpAction_of_air inp hcs, trickActions_idle hJ hK hL]
  obtain ⟨a₁, -, a₃, a₄⟩ := (animation_scoring dt (collided ops lvl dt inp p)).trans
    (messageTick_scoring dt _)
  rw [a₁, a₃, a₄, (messageTick_pos_vel dt _).2, (animation_pos_vel dt _).2]
  refine ⟨hcs, ?_, ?_, ?_⟩
  · show (floorSnap _ (integrated ops lvl dt inp p)).vel.y = -2
    rw [f₁, hq]; rfl
  · show (floorSnap _ (integrated ops lvl dt inp p)).comboScore = _
    rw [f₃, hq]; rfl
  · show (floorSnap _ (integrated ops lvl dt inp p)).comboMult = _
    rw [f₄, hq]; rfl

/-- C10 at a concrete frame: a grinding player just past the far end of the red rail of
`InitLevel`, pending combo 150 and multiplier 3, idle input, dt = 1/100. -/
theorem C10_grind_exit_witness :
    ((grindLogic realOps (InitLevel : Level ℝ).rails idleInput overshotPlayer).state = STATE_AIR
        ∧ (grindLogic realOps (InitLevel : Level ℝ).rails idleInput overshotPlayer).vel.y = -2
        ∧ (grindLogic realOps (InitLevel : Level ℝ).rails idleInput overshotPlayer).comboScore
            = 150
        ∧ (grindLogic realOps (InitLevel : Level ℝ).rails idleInput overshotPlayer).comboMult
            = 3)
      ∧ (UpdateGame realOps InitLevel (1 / 100) idleInput overshotPlayer).state = STATE_AIR
      ∧ (UpdateGame realOps InitLevel (1 / 100) idleInput overshotPlayer).vel.y = -2
      ∧ (UpdateGame realOps InitLevel (1 / 100) idleInput overshotPlayer).comboScore = 150
      ∧ (UpdateGame realOps InitLevel (1 / 100) idleInput overshotPlayer).comboMult = 3 := by
  have hb := overshot_beforeGrindLogic
  obtain ⟨hi, hf⟩ := overshot_frame_eval
  obtain ⟨h₁, h₂⟩ := C10_grind_exit realOps InitLevel (1 / 100) idleInput overshotPlayer
    (by rw [hb]; rfl) (by rw [hb]; exact overshot_far_from_rails)
  have h₃ := h₂ (by rw [hi, hf]; norm_num [playerAt]) rfl rfl rfl
  rw [hb] at h₁ h₃
  exact ⟨h₁, h₃⟩

/-- C11 (closest point on a segment): over the reals, for every point `p` and every segment
with end points `a ≠ b`, `ClosestPointOnSegment p a b` is the point `a + t * (b - a)` for
some `t` in [0, 1], and its distance to `p` is at most the distance from `p` to every point
`a + s * (b - a)` with `s` in [0, 1]. -/
theorem C11_closest_point_on_segment (p a b : Vector3 ℝ) (hab : a ≠ b) :
    ∃ t : ℝ, 0 ≤ t ∧ t ≤ 1
      ∧ ClosestPointOnSegment p a b = Vector3Add a (Vector3Scale (Vector3Subtract b a) t)
      ∧ ∀ s : ℝ, 0 ≤ s → s ≤ 1 →
          Vector3Distance realOps p (ClosestPointOnSegment p a b)
            ≤ Vector3Distance realOps p (Vector3Add a (Vector3Scale (Vector3Subtract b a) s)) := by
  refine ⟨_, (clamp_unit_mem _).1, (clamp_unit_mem _).2, closestPoint_eq_pointAt p a b, ?_⟩
  intro s h₀ h₁
  rw [real_distance_eq, real_distance_eq]
  exact Real.sqrt_le_sqrt (closestPoint_distSq_le hab h₀ h₁)

/-- C11 at a concrete input: the red rail of `InitLevel` and the position of
`fallingPlayer`. -/
theorem C11_closest_point_on_segment_witness :
    (⟨5, 0, 10⟩ : Vector3 ℝ) ≠ ⟨5, 0, 40⟩
      ∧ ∃ t : ℝ, 0 ≤ t ∧ t ≤ 1
        ∧ ClosestPointOnSegment (⟨5.5, 1.8, 20⟩ : Vector3 ℝ) ⟨5, 0, 10⟩ ⟨5, 0, 40⟩
            = Vector3Add ⟨5, 0, 10⟩ (Vector3Scale (Vector3Subtract ⟨5, 0, 40⟩ ⟨5, 0, 10⟩) t)
        ∧ ∀ s : ℝ, 0 ≤ s → s ≤ 1 →
            Vector3Distance realOps ⟨5.5, 1.8, 20⟩
                (ClosestPointOnSegment (⟨5.5, 1.8, 20⟩ : Vector3 ℝ) ⟨5, 0, 10⟩ ⟨5, 0, 40⟩)
              ≤ Vector3Distance realOps ⟨5.5, 1.8, 20⟩
                (Vector3Add ⟨5, 0, 10⟩
                  (Vector3Scale (Vector3Subtract ⟨5, 0, 40⟩ ⟨5, 0, 10⟩) s)) :=
  have hab : (⟨5, 0, 10⟩ : Vector3 ℝ) ≠ ⟨5, 0, 40⟩ := by
    intro h
    have := congrArg Vector3.z h
    norm_num at this
  ⟨hab, C11_closest_point_on_segment ⟨5.5, 1.8, 20⟩ ⟨5, 0, 10⟩ ⟨5, 0, 40⟩ hab⟩

/-- C12 (terrain height): for every list of ramps with `size.y ≥ 0` and every position, the
floor height computed by the ramp loop of `UpdateGame` is the maximum of `t * size.y` over
the ramps whose rotated footprint holds the point: every such ramp has `t` in [0, 1] and a
height at most the floor height, the floor height is attained by one of them when there
is one, and it is 0 when there is none. -/
theorem C12_floor_height_is_maximum (ops : MathOps F) (ramps : List (Ramp F))
    (pos : Vector3 F) (hy : ∀ ramp ∈ ramps, 0 ≤ ramp.size.y) :
    (∀ ramp ∈ ramps, InFootprint ops pos ramp →
        0 ≤ rampT ops pos ramp ∧ rampT ops pos ramp ≤ 1
          ∧ rampT ops pos ramp * ramp.size.y ≤ (floorScan ops ramps pos).1)
      ∧ ((∃ ramp ∈ ramps, InFootprint ops pos ramp) →
          ∃ ramp ∈ ramps, InFootprint ops pos ramp
            ∧ (floorScan ops ramps pos).1 = rampT ops pos ramp * ramp.size.y)
      ∧ ((∀ ramp ∈ ramps, ¬ InFootprint ops pos ramp) → (floorScan ops ramps pos).1 = 0) := by
  obtain ⟨h₁, h₂, h₃⟩ := foldl_floorRamp_max ops pos ramps (0, false)
  refine ⟨fun r hr hin => ⟨(rampT_mem hin).1, (rampT_mem hin).2, h₂ r hr hin⟩, ?_, ?_⟩
  · rintro ⟨r, hr, hin⟩
    rcases h₃ with h | h
    · refine ⟨r, hr, hin, ?_⟩
      have hle := h₂ r hr hin
      have hge := rampHeight_nonneg hin (hy r hr)
      unfold floorScan
      rw [h] at hle ⊢
      exact le_antisymm hge hle
    · exact h
  · intro hnone
    rcases h₃ with h | ⟨r, hr, hin, -⟩
    · exact h
    · exact absurd hin (hnone r hr)

/-- C12 at a concrete input: the ramps of `InitLevel` and a point on the kicker ramp. -/
theorem C12_floor_height_is_maximum_witness :
    (∀ ramp ∈ (InitLevel : Level ℝ).ramps, 0 ≤ ramp.size.y)
      ∧ (∃ ramp ∈ (InitLevel : Level ℝ).ramps, InFootprint realOps ⟨0, 0.9165, 23.2⟩ ramp)
      ∧ (∀ ramp ∈ (InitLevel : Level ℝ).ramps, InFootprint realOps ⟨0, 0.9165, 23.2⟩ ramp →
          0 ≤ rampT realOps ⟨0, 0.9165, 23.2⟩ ramp ∧ rampT realOps ⟨0, 0.9165, 23.2⟩ ramp ≤ 1
            ∧ rampT realOps ⟨0, 0.9165, 23.2⟩ ramp * ramp.size.y
                ≤ (floorScan realOps (InitLevel : Level ℝ).ramps ⟨0, 0.9165, 23.2⟩).1)
      ∧ ∃ ramp ∈ (InitLevel : Level ℝ).ramps, InFootprint realOps ⟨0, 0.9165, 23.2⟩ ramp
          ∧ (floorScan realOps (InitLevel : Level ℝ).ramps ⟨0, 0.9165, 23.2⟩).1
              = rampT realOps ⟨0, 0.9165, 23.2⟩ ramp * ramp.size.y := by
  have hy : ∀ ramp ∈ (InitLevel : Level ℝ).ramps, 0 ≤ ramp.size.y := by
    intro ramp hr
    simp only [InitLevel, List.mem_cons, List.mem_singleton, List.not_mem_nil, or_false] at hr
    rcases hr with rfl | rfl | rfl <;> norm_num
  have hex : ∃ ramp ∈ (InitLevel : Level ℝ).ramps,
      InFootprint realOps ⟨0, 0.9165, 23.2⟩ ramp :=
    ⟨_, List.mem_cons_self _ _, kicker_holds_point _⟩
  obtain ⟨h₁, h₂, -⟩ := C12_floor_height_is_maximum realOps (InitLevel : Level ℝ).ramps
    ⟨0, 0.9165, 23.2⟩ hy
  exact ⟨hy, hex, h₁, h₂ hex⟩

/-- C13 (jump action): in a frame in which jump is pressed, if the phase after collision
resolution is Ground or Grind and no trick key is pressed, the frame ends with vertical
velocity 13, phase Air, pending combo 10 more than after collision resolution and the
multiplier unchanged; if the phase after collision resolution is Air, the jump block
returns the player unchanged. -/
theorem C13_jump_action (ops : MathOps F) (lvl : Level F) (dt : F) (inp : Input F)
    (p : Player F) (hSpace : inp.pressedSPACE = true) :
    (((collided ops lvl dt inp p).state = STATE_GROUND
          ∨ (collided ops lvl dt inp p).state = STATE_GRIND) →
        inp.pressedJ = false → inp.pressedK = false → inp.pressedL = false →
        (UpdateGame ops lvl dt inp p).vel.y = 13
          ∧ (UpdateGame ops lvl dt inp p).state = STATE_AIR
          ∧ (UpdateGame ops lvl dt inp p).comboScore
              = (collided ops lvl dt inp p).comboScore + 10
          ∧ (UpdateGame ops lvl dt inp p).comboMult = (collided ops lvl dt inp p).comboMult)
      ∧ ((collided ops lvl dt inp p).state = STATE_AIR →
          jumpAction inp (collided ops lvl dt inp p) = collided ops lvl dt inp p) := by
  refine ⟨fun hs hJ hK hL => ?_, fun hs => jumpAction_of_air inp hs⟩
  obtain ⟨⟨a, -, c, d⟩, v⟩ := updateGame_after_collision ops lvl dt p hJ hK hL
  rw [v, a, c, d, jumpAction_pressed hSpace hs]
  exact ⟨rfl, rfl, rfl, rfl⟩

/-- C13 at a concrete frame: jump pressed in the frame in which `landingPlayer` lands in
`InitLevel`; after the landing the pending combo is 0 and the multiplier 1. -/
theorem C13_jump_action_witness :
    (UpdateGame realOps InitLevel (1 / 100) jumpInput landingPlayer).vel.y = 13
      ∧ (UpdateGame realOps InitLevel (1 / 100) jumpInput landingPlayer).state = STATE_AIR
      ∧ (UpdateGame realOps InitLevel (1 / 100) jumpInput landingPlayer).comboScore = 0 + 10
      ∧ (UpdateGame realOps InitLevel (1 / 100) jumpInput landingPlayer).comboMult = 1 := by
  obtain ⟨hs, hc, hm⟩ := landing_collided
  have h := (C13_jump_action realOps InitLevel (1 / 100) jumpInput landingPlayer rfl).1
    (Or.inl hs) rfl rfl rfl
  rw [hc, hm] at h
  exact h

/-- C14, the claim as stated fails: with the turn-left key down (turn axis 1) and
dt = 1/100 an airborne player facing 0 ends the frame facing 3.5, not 0.035. -/
theorem C14_turning_ignores_dt :
    (0 : ℝ) < 1 / 100 ∧ (fallingPlayer : Player ℝ).state ≠ STATE_GRIND
      ∧ turnInput (leftInput : Input ℝ) = 1
      ∧ (UpdateGame realOps InitLevel (1 / 100) leftInput fallingPlayer).rot = 3.5
      ∧ (UpdateGame realOps InitLevel (1 / 100) leftInput fallingPlayer).rot
          ≠ (fallingPlayer : Player ℝ).rot + turnInput (leftInput : Input ℝ) * 3.5 * (1 / 100) := by
  rw [updateGame_rot]
  norm_num [turning, resetKey, leftInput, idleInput, turnInput, fallingPlayer, playerAt,
    TURN_SPEED]

/-- C14 (turning, amended): in a frame without reset request, a player whose phase is not
Grind ends the frame with its facing angle advanced by exactly turn axis times
`TURN_SPEED` (3.5), whatever dt; a player in phase Grind keeps its facing angle. -/
theorem C14_turning_per_frame (ops : MathOps F) (lvl : Level F) (dt : F) (inp : Input F)
    (p : Player F) (hR : inp.pressedR = false) :
    (p.state ≠ STATE_GRIND →
        (UpdateGame ops lvl dt inp p).rot = p.rot + turnInput inp * 3.5)
      ∧ (p.state = STATE_GRIND → (UpdateGame ops lvl dt inp p).rot = p.rot) := by
  rw [updateGame_rot, resetKey_idle hR, turning_rot]
  refine ⟨fun h => ?_, fun h => ?_⟩
  · rw [if_pos h]; rfl
  · rw [if_neg (not_not.mpr h)]

/-- C14 at a concrete frame: turn-left key down on `fallingPlayer`, dt = 1/100. -/
theorem C14_turning_per_frame_witness :
    ((fallingPlayer : Player ℝ).state ≠ STATE_GRIND →
        (UpdateGame realOps InitLevel (1 / 100) leftInput fallingPlayer).rot
          = (fallingPlayer : Player ℝ).rot + turnInput (leftInput : Input ℝ) * 3.5)
      ∧ ((fallingPlayer : Player ℝ).state = STATE_GRIND →
        (UpdateGame realOps InitLevel (1 / 100) leftInput fallingPlayer).rot
          = (fallingPlayer : Player ℝ).rot) :=
  C14_turning_per_frame realOps InitLevel (1 / 100) leftInput fallingPlayer rfl

/-- C15, the claim as stated fails: an airborne player moving up the kicker ramp of
`InitLevel` reaches the collision code in phase Air with vertical velocity 1.65 > 0 at
height 0.9165, below the floor height 0.96; it is landed (phase Ground) and its combo is
banked (score 7 to 457), and it keeps its vertical velocity. -/
theorem C15_rising_player_is_landed :
    (integrated realOps InitLevel (1 / 100) idleInput climbingPlayer).state = STATE_AIR
      ∧ 0 < (integrated realOps InitLevel (1 / 100) idleInput climbingPlayer).vel.y
      ∧ (integrated realOps InitLevel (1 / 100) idleInput climbingPlayer).pos.y
          ≤ resolvedFloor realOps InitLevel (1 / 100) idleInput climbingPlayer
      ∧ (collided realOps InitLevel (1 / 100) idleInput climbingPlayer).state = STATE_GROUND
      ∧ (climbingPlayer : Player ℝ).score = 7
      ∧ (collided realOps InitLevel (1 / 100) idleInput climbingPlayer).score = 457
      ∧ (collided realOps InitLevel (1 / 100) idleInput climbingPlayer).vel.y = 1.65 := by
  obtain ⟨hi, hf⟩ := climbing_frame_steps
  obtain ⟨h₁, h₂, h₃⟩ := climbing_collided
  rw [hi, hf]
  refine ⟨rfl, ?_, ?_, h₁, rfl, h₂, h₃⟩ <;> norm_num [playerAt]

/-- C15 (landing, amended): when the collision code of a frame finds the player in phase
Air, it moves the phase to Ground if and only if the integrated height is at or below the
resolved floor height, whatever the sign of the vertical velocity; on that branch a pending
combo of at least 0 is banked (score plus pending times multiplier), a negative vertical
velocity becomes 0 and any other vertical velocity is kept. -/
theorem C15_landing_guard (ops : MathOps F) (lvl : Level F) (dt : F) (inp : Input F)
    (p : Player F) (hAir : (integrated ops lvl dt inp p).state = STATE_AIR) :
    ((collided ops lvl dt inp p).state = STATE_GROUND
        ↔ (integrated ops lvl dt inp p).pos.y ≤ resolvedFloor ops lvl dt inp p)
      ∧ ((integrated ops lvl dt inp p).pos.y ≤ resolvedFloor ops lvl dt inp p →
          (0 ≤ (integrated ops lvl dt inp p).comboScore →
            (collided ops lvl dt inp p).score
              = (integrated ops lvl dt inp p).score
                + (integrated ops lvl dt inp p).comboScore
                  * (integrated ops lvl dt inp p).comboMult)
          ∧ (collided ops lvl dt inp p).vel.y
              = if (integrated ops lvl dt inp p).vel.y < 0 then 0
                else (integrated ops lvl dt inp p).vel.y) := by
  unfold collided
  refine ⟨floorSnap_air_ground_iff hAir, fun hle => ⟨fun hc => ?_, floorSnap_vel_y_of_le hle⟩⟩
  exact floorSnap_score_landing ⟨hle, Or.inl hAir⟩ hc

/-- C15 at a concrete frame: the player moving up the kicker ramp of `InitLevel`. -/
theorem C15_landing_guard_witness :
    ((collided realOps InitLevel (1 / 100) idleInput climbingPlayer).state = STATE_GROUND
        ↔ (integrated realOps InitLevel (1 / 100) idleInput climbingPlayer).pos.y
            ≤ resolvedFloor realOps InitLevel (1 / 100) idleInput climbingPlayer)
      ∧ (collided realOps InitLevel (1 / 100) idleInput climbingPlayer).score = 7 + 150 * 3
      ∧ (collided realOps InitLevel (1 / 100) idleInput climbingPlayer).vel.y = 1.65 := by
  obtain ⟨hi, hf⟩ := climbing_frame_steps
  obtain ⟨h₁, h₂⟩ := C15_landing_guard realOps InitLevel (1 / 100) idleInput climbingPlayer
    (by rw [hi]; rfl)
  obtain ⟨h₃, h₄⟩ := h₂ (by rw [hi, hf]; norm_num [playerAt])
  have h₅ := h₃ (by rw [hi]; decide)
  rw [hi] at h₅ h₄
  refine ⟨h₁, h₅, ?_⟩
  rw [h₄]; norm_num [playerAt]

/-- C16, the code on two rails within snap range: in `twinRailLevel` the grind-entry check
finds `twinRailPlayer` in phase Air with negative vertical velocity, pending combo 150 and
multiplier 3, both rails satisfy the snap condition, and the check leaves pending combo 250
and multiplier 5: the bonus is awarded once per rail. -/
theorem C16_two_rails_award_twice :
    (locomotion realOps (1 / 100) idleInput twinRailPlayer).state = STATE_AIR
      ∧ (locomotion realOps (1 / 100) idleInput twinRailPlayer).vel.y < 0
      ∧ (∀ rail ∈ (twinRailLevel : Level ℝ).rails,
          SnapCondition realOps (locomotion realOps (1 / 100) idleInput twinRailPlayer) rail)
      ∧ (locomotion realOps (1 / 100) idleInput twinRailPlayer).comboScore = 150
      ∧ (locomotion realOps (1 / 100) idleInput twinRailPlayer).comboMult = 3
      ∧ (beforeGrindLogic realOps twinRailLevel (1 / 100) idleInput twinRailPlayer).comboScore
          = 150 + 100
      ∧ (beforeGrindLogic realOps twinRailLevel (1 / 100) idleInput twinRailPlayer).comboMult
          = 3 + 2 := by
  obtain ⟨h₁, h₂⟩ := twinRail_steps
  rw [h₁, h₂]
  refine ⟨rfl, by norm_num [playerAt], twinRail_both_qualify, rfl, rfl, rfl, rfl⟩

/-- C18 (never below the terrain): for every player, level, dt and input, at the bounds
check of `UpdateGame` the height of the player is at least the resolved floor height, which
is at least 0; hence the test `position.y < -10` fails and the frame returns the player as
the bounds check finds it, without calling `ResetGame`. -/
theorem C18_bounds_reset_unreachable (ops : MathOps F) (lvl : Level F) (dt : F)
    (inp : Input F) (p : Player F) :
    0 ≤ resolvedFloor ops lvl dt inp p
      ∧ resolvedFloor ops lvl dt inp p ≤ (beforeBounds ops lvl dt inp p).pos.y
      ∧ ¬ (beforeBounds ops lvl dt inp p).pos.y < -10
      ∧ boundsCheck (beforeBounds ops lvl dt inp p) = beforeBounds ops lvl dt inp p
      ∧ UpdateGame ops lvl dt inp p = beforeBounds ops lvl dt inp p := by
  have h₁ := resolvedFloor_nonneg ops lvl dt inp p
  have h₂ := beforeBounds_pos_y_ge ops lvl dt inp p
  have h₃ : ¬ (beforeBounds ops lvl dt inp p).pos.y < -10 := by
    intro h; linarith
  refine ⟨h₁, h₂, h₃, ?_, updateGame_eq_beforeBounds ops lvl dt inp p⟩
  unfold boundsCheck
  rw [if_neg h₃]

/-- C19 (grind in `InitLevel`): with an exact square root, when the grind-entry check of a
frame in `InitLevel` snaps a player in phase Air with negative vertical velocity onto a
rail, the snapped height is 1.7, the continuation check of the same frame finds no rail
within 0.5, and before position integration the phase is Air again with vertical velocity
-2, the pending combo 50 higher and the multiplier 1 higher than before the snap. -/
theorem C19_grind_ends_in_same_frame (ops : MathOps F) (hSqrt : ExactSqrt ops) (dt : F)
    (inp : Input F) (p : Player F)
    (hAir : (locomotion ops dt inp p).state = STATE_AIR)
    (_hFall : (locomotion ops dt inp p).vel.y < 0)
    (hSnap : (beforeGrindLogic ops InitLevel dt inp p).state = STATE_GRIND) :
    (beforeGrindLogic ops InitLevel dt inp p).pos.y = 1.5 + 0.2
      ∧ (∀ rail ∈ (InitLevel : Level F).rails,
          ¬ NearRail ops (beforeGrindLogic ops InitLevel dt inp p).pos rail)
      ∧ (grindLogic ops (InitLevel : Level F).rails inp
          (beforeGrindLogic ops InitLevel dt inp p)).state = STATE_AIR
      ∧ (grindLogic ops (InitLevel : Level F).rails inp
          (beforeGrindLogic ops InitLevel dt inp p)).vel.y = -2
      ∧ (grindLogic ops (InitLevel : Level F).rails inp
          (beforeGrindLogic ops InitLevel dt inp p)).comboScore
            = (locomotion ops dt inp p).comboScore + 50
      ∧ (grindLogic ops (InitLevel : Level F).rails inp
          (beforeGrindLogic ops InitLevel dt inp p)).comboMult
            = (locomotion ops dt inp p).comboMult + 1 := by
  obtain ⟨hc, he⟩ := initLevel_grindEntry_snap hSqrt hAir hSnap
  obtain ⟨-, s₂, s₃, s₄⟩ := grindEntryRail_of_snap hc
  have hb : beforeGrindLogic ops InitLevel dt inp p
      = grindEntryRail ops (locomotion ops dt inp p) redRail := he
  have hy : (beforeGrindLogic ops InitLevel dt inp p).pos.y = 1.5 + 0.2 := by
    rw [hb, s₂]; rfl
  have hFar : ∀ rail ∈ (InitLevel : Level F).rails,
      ¬ NearRail ops (beforeGrindLogic ops InitLevel dt inp p).pos rail :=
    initLevel_not_near hSqrt (by rw [hy]; norm_num)
  have hx := grindLogic_exit ops (InitLevel : Level F).rails inp hSnap hFar
  refine ⟨hy, hFar, ?_, ?_, ?_, ?_⟩
  · rw [hx]
  · rw [hx]
  · rw [hx]; show (beforeGrindLogic ops InitLevel dt inp p).comboScore = _
    rw [hb, s₃]
  · rw [hx]; show (beforeGrindLogic ops InitLevel dt inp p).comboMult = _
    rw [hb, s₄]

/-- C19 at a concrete frame: `railHitPlayer` is snapped onto the red rail of `InitLevel`
and is back in phase Air before integration, with the bonus awarded. -/
theorem C19_grind_ends_in_same_frame_witness :
    (beforeGrindLogic realOps InitLevel (1 / 100) idleInput railHitPlayer).state = STATE_GRIND
      ∧ (grindLogic realOps (InitLevel : Level ℝ).rails idleInput
          (beforeGrindLogic realOps InitLevel (1 / 100) idleInput railHitPlayer)).state
            = STATE_AIR
      ∧ (grindLogic realOps (InitLevel : Level ℝ).rails idleInput
          (beforeGrindLogic realOps InitLevel (1 / 100) idleInput railHitPlayer)).vel.y = -2
      ∧ (grindLogic realOps (InitLevel : Level ℝ).rails idleInput
          (beforeGrindLogic realOps InitLevel (1 / 100) idleInput railHitPlayer)).comboScore
            = 150 + 50
      ∧ (grindLogic realOps (InitLevel : Level ℝ).rails idleInput
          (beforeGrindLogic realOps InitLevel (1 / 100) idleInput railHitPlayer)).comboMult
            = 3 + 1 := by
  obtain ⟨h₁, h₂⟩ := railHit_steps
  have hs : (beforeGrindLogic realOps InitLevel (1 / 100) idleInput railHitPlayer).state
      = STATE_GRIND := by rw [h₂]; rfl
  obtain ⟨-, -, a, b, c, d⟩ := C19_grind_ends_in_same_frame realOps realOps_exactSqrt
    (1 / 100) idleInput railHitPlayer (by rw [h₁]; rfl) (by rw [h₁]; norm_num [playerAt]) hs
  rw [h₁] at c d
  exact ⟨hs, a, b, c, d⟩

/-- C20 (gold rail): with an exact square root, for every player the snap condition of the
grind-entry check is false for the gold rail of `InitLevel`, end points (-20, 0, 25) and
(-5, 0, 25), height 2: a player within distance 1.5 of the segment, which lies at height 0,
is lower than 1.5, below the height band; the loop body leaves the player unchanged. -/
theorem C20_gold_rail_never_snaps (ops : MathOps F) (hSqrt : ExactSqrt ops) (p : Player F) :
    (goldRail : Rail F) ∈ (InitLevel : Level F).rails
      ∧ (Vector3Distance ops p.pos
            (ClosestPointOnSegment p.pos ⟨-20, 0, 25⟩ ⟨-5, 0, 25⟩) < RAIL_SNAP_DIST →
          p.pos.y < 1.5)
      ∧ ¬ SnapCondition ops p goldRail
      ∧ grindEntryRail ops p goldRail = p := by
  refine ⟨by simp [initLevel_rails], fun hd => ?_, goldRail_no_snap hSqrt p,
    grindEntryRail_of_not_snap (goldRail_no_snap hSqrt p)⟩
  have h := height_lt_of_distance_lt hSqrt p.pos (a := (⟨-20, 0, 25⟩ : Vector3 F))
    (b := (⟨-5, 0, 25⟩ : Vector3 F)) rfl rfl (by norm_num [RAIL_SNAP_DIST]) hd
  unfold RAIL_SNAP_DIST at h
  exact h

/-- C20 at a concrete player: next to the gold rail, 0.3 above its height. -/
theorem C20_gold_rail_never_snaps_witness :
    ¬ SnapCondition realOps (goldHoverPlayer : Player ℝ) goldRail
      ∧ grindEntryRail realOps (goldHoverPlayer : Player ℝ) goldRail = goldHoverPlayer :=
  (C20_gold_rail_never_snaps realOps realOps_exactSqrt goldHoverPlayer).2.2

end Claims

end Skate
